import Mathlib

/-!
# AIDiagnosticConsumer

A shallow embedding of `AIDiagnosticConsumer.cpp`: the configuration read by
`Init`, the prompt built by `getPrompt`, the gate and request of
`HandleDiagnostic` and its response handler, followed by the properties the
specification states about them.

Conventions of the embedding.

* Text is a `String` of Unicode characters: the byte strings of the program are
  taken to be valid UTF-8.  A `const char *` is a `CString` (no NUL inside) or
  null (`none`); reading a buffer as a C string stops at its first NUL (`c_str`).
* The compiler (`CompilerInstance`, `Sema`, `Preprocessor`, `SourceManager`,
  `Diagnostic`) is external to the repository.  Its accessors are fields of
  structures carrying the names the source uses, and the state the consumer
  finds at each call is passed explicitly.
* Output and network traffic are recorded as a list of `Event`s.  A member
  access through a null pointer ends the run with `Status.nullDereference`.
-/

namespace AIDiag

/-! ## Text and C strings -/

/-- The NUL character, which terminates a C string. -/
def NUL : Char := Char.ofNat 0

/-- A NUL-terminated string as a `const char *` designates it: the characters
before the terminator, none of which is NUL. -/
structure CString where
  text : String
  nul_free : text.data.all (fun c => c != NUL) = true
deriving DecidableEq

/-- Reading memory as a C string (`strlen`, `std::string::c_str` seen through a
`const char *`): the characters before the first NUL. -/
def c_str (s : String) : CString :=
  ⟨⟨s.data.takeWhile (fun c => c != NUL)⟩, by
    simp only [List.all_eq_true]
    intro c hc
    have h := List.mem_takeWhile_imp hc
    exact h⟩

/-- The constructor `StringRef(const char *)`: empty for a null pointer, the C
string otherwise. -/
def StringRef.ofCStr : Option CString → String
  | none => ""
  | some s => s.text

/-- Rendering state of `formatv`: outside a replacement field, just after an
opening brace, or inside a field whose index digits read so far have the given
value. -/
inductive FormatState where
  | literal
  | opened
  | field (index : Nat)

/-- One character inside a replacement field: the closing brace ends the field,
a digit extends the index, anything else (alignment, style) is skipped. -/
def FormatState.inField (n : Nat) (c : Char) : FormatState :=
  if c = Char.ofNat 0x7d then .literal
  else if c.isDigit then .field (10 * n + (c.toNat - 48))
  else .field n

/-- Scanner behind `formatv`.  Text outside braces is copied, a doubled opening
brace stands for one brace, and a field is replaced by the argument its index
names (nothing when there is no such argument). -/
def formatvGo (Vals : List String) : FormatState → List Char → List Char
  | _, [] => []
  | .literal, c :: cs =>
    if c = Char.ofNat 0x7b then formatvGo Vals .opened cs
    else c :: formatvGo Vals .literal cs
  | .opened, c :: cs =>
    if c = Char.ofNat 0x7b then c :: formatvGo Vals .literal cs
    else if c = Char.ofNat 0x7d then (Vals.getD 0 "").data ++ formatvGo Vals .literal cs
    else formatvGo Vals (FormatState.inField 0 c) cs
  | .field n, c :: cs =>
    if c = Char.ofNat 0x7d then (Vals.getD n "").data ++ formatvGo Vals .literal cs
    else formatvGo Vals (FormatState.inField n c) cs

/-- Model of `llvm::formatv(Fmt, Vals...)` (LLVM, external): replacement fields
are written with braces around the argument index, so a format string without
an opening brace is rendered as itself whatever the arguments are.  A percent
sign followed by a digit is ordinary text.  Alignment and style options of a
field are not modelled; no format string of this program has a field. -/
def formatv (Fmt : String) (Vals : List String) : String :=
  ⟨formatvGo Vals .literal Fmt.data⟩

/-! ## Observable events -/

/-- An HTTP request handed to libcurl: the options set on the handle. -/
structure HttpRequest where
  URL : String
  HTTPHEADER : List String
  POSTFIELDS : String
deriving DecidableEq

/-- What a run writes or sends, in order. -/
inductive Event where
  /-- A line `elog` writes to `llvm::errs()` in red. -/
  | elog (text : String)
  /-- Text written to `llvm::errs()` in the default colour. -/
  | errs (text : String)
  /-- One `curl_easy_perform` on a handle configured with this request. -/
  | perform (Request : HttpRequest)
deriving DecidableEq

/-- The function `elog`: switch `llvm::errs()` to red, write the formatted text
and a newline, reset the colour. -/
def elog (Fmt : String) (Vals : List String) : List Event :=
  [Event.elog (formatv Fmt Vals ++ "\n")]

/-- How a run ends: by returning, or in the undefined behaviour of a member
access through a null pointer. -/
inductive Status where
  | returned
  | nullDereference
deriving DecidableEq

/-- A run of a `void` function: the events it produced and how it ended. -/
structure Run where
  events : List Event
  status : Status
deriving DecidableEq

/-- The requests a list of events sent. -/
def requestsOf : List Event → List HttpRequest
  | [] => []
  | Event.perform r :: es => r :: requestsOf es
  | _ :: es => requestsOf es

/-! ## The compiler, as the consumer sees it -/

/-- An encoded source location (`clang::SourceLocation`). -/
abbrev SourceLocation := Nat

/-- The identifier of a source buffer (`clang::FileID`). -/
abbrev FileID := Nat

/-- A pair of locations (`clang::SourceRange`). -/
structure SourceRange where
  Begin : SourceLocation
  End : SourceLocation
deriving DecidableEq

/-- A character range (`clang::CharSourceRange`). -/
structure CharSourceRange where
  Range : SourceRange
  IsTokenRange : Bool
deriving DecidableEq

/-- The part of `clang::SourceManager` the consumer uses.  The field `print` is
`SourceLocation::print(OS, SM)`, the text `file:line:column` of a location, and
`getSourceText` is `Lexer::getSourceText(Range, SM, LangOpts)`, the text
a range spans in the buffers of this manager (empty for an invalid range). -/
structure SourceManager where
  getSpellingLoc : SourceLocation → SourceLocation
  print : SourceLocation → String
  getFileID : SourceLocation → FileID
  getBufferDataOrNone : FileID → Option String
  getExpansionRange : SourceRange → CharSourceRange
  getSourceText : CharSourceRange → String

/-- A diagnostic (`clang::Diagnostic`): its rendered message, its location and
the source manager that resolves it. -/
structure Diagnostic where
  FormatDiagnostic : String
  getLocation : SourceLocation
  getSourceManager : SourceManager

/-- Severity of a diagnostic (`DiagnosticsEngine::Level`), in increasing
order. -/
inductive Level where
  | Ignored
  | Note
  | Remark
  | Warning
  | Error
  | Fatal
deriving DecidableEq

/-- The enumerator value of a level. -/
def Level.toNat : Level → Nat
  | .Ignored => 0
  | .Note => 1
  | .Remark => 2
  | .Warning => 3
  | .Error => 4
  | .Fatal => 5

instance : LE Level := ⟨fun a b => a.toNat ≤ b.toNat⟩

instance (a b : Level) : Decidable (a ≤ b) := inferInstanceAs (Decidable (a.toNat ≤ b.toNat))

/-- A declaration (`clang::Decl`), reduced to its source range.  A `DeclContext`
is seen through `cast<Decl>`. -/
structure Decl where
  getSourceRange : SourceRange
deriving DecidableEq

/-- One frame of the instantiation stack (`Sema::CodeSynthesisContext`).  The
entity is taken to be non-null, as the data model states and as the loop of
`getPrompt`, which dereferences it unconditionally, assumes. -/
structure CodeSynthesisContext where
  PointOfInstantiation : SourceLocation
  Entity : Decl
deriving DecidableEq

/-- The part of `clang::Sema` the consumer reads.  The stack is listed from its
`begin()`, the outermost active frame, to the innermost one.  The flag is an
accessor of its own, as it is for the source. -/
structure Sema where
  inTemplateInstantiation : Bool
  CodeSynthesisContexts : List CodeSynthesisContext
  getCurLexicalContext : Option Decl
deriving DecidableEq

/-- A preprocessing token (`clang::Token`).  For a literal, `getLiteralData` is
a pointer to where the literal starts in its source buffer (or null): the
literal itself is the first `getLength` characters there, and the C string at
that address runs on to the NUL that ends the buffer. -/
structure Token where
  isLiteral : Bool
  getLength : Nat
  getLiteralData : Option CString

/-- The spelling of a literal token: `getLength` characters from
`getLiteralData`. -/
def Token.spelling (T : Token) : String :=
  ⟨(StringRef.ofCStr T.getLiteralData).data.take T.getLength⟩

/-- The definition of a macro (`clang::MacroInfo`): its replacement tokens. -/
structure MacroInfo where
  tokens : List Token

/-- The number of replacement tokens. -/
def MacroInfo.getNumTokens (M : MacroInfo) : Nat := M.tokens.length

/-- The preprocessor (`clang::Preprocessor`): the definition of the macro of each
name, if there is one (`getMacroInfo` of the identifier the table gives). -/
structure Preprocessor where
  getMacroInfo : String → Option MacroInfo

/-- The state of the `CompilerInstance` at the time of a call: `hasPreprocessor`
and `hasSema` are `isSome` of the two fields. -/
structure CompilerInstance where
  getPreprocessor : Option Preprocessor
  getSema : Option Sema

/-- The process environment: `std::getenv`, null for an unset variable. -/
structure Environ where
  getenv : String → Option CString

/-! ## The consumer: `Init` and `getPrompt` -/

/-- The private members of `class AIDiagnosticConsumer`, with their default
member initialisers.  The reference `CI` is not stored: the state of the
compiler instance is passed to each call. -/
structure AIDiagnosticConsumer where
  AK : Option CString := none
  Model : Option CString := none
  REPLY_LANG : Option CString := none
  ROLE_PROMPT : Option CString := none
  RolePrompt : String := ""
  StdlibVersion : String := ""

/-- The model used when `CLANG_AI_MODEL` is unset. -/
def defaultModel : CString := ⟨"qwen-max", by decide⟩

/-- The reply language used when `CLANG_AI_REPLY_LANG` is unset. -/
def defaultReplyLang : CString := ⟨"中文", by decide⟩

set_option maxRecDepth 8192 in
/-- The role prompt used when `CLANG_AI_ROLE_PROMPT` is unset. -/
def defaultRolePrompt : CString :=
  ⟨"You're an AI assistant that helps improve compiler errors. " ++
   "Your task is to analyze the given error message and provide a solution. " ++
   "Don't repear error message simply. " ++
   "Don't guess if you're not sure about your reply. " ++
   "Please be brief as much as possible.", by decide⟩

/-- The sentence `Init` appends last to the system prompt. -/
def translateInstruction : String :=
  "Please translate the error message if you were asked to reply in language other than English. "

/-- The lambda `GetLiteralMacroValue` of `Init`: the macro must be defined, have
a replacement token, and the first one must be a literal; the value is the
`SmallString` built from the `const char *` that `getLiteralData` returns. -/
def GetLiteralMacroValue (PP : Preprocessor) (MacroName : String) : Option String :=
  match PP.getMacroInfo MacroName with
  | none => none
  | some MInfo =>
    if MInfo.getNumTokens = 0 then none
    else
      match MInfo.tokens with
      | [] => none
      | ValueToken :: _ =>
        if !ValueToken.isLiteral then none
        else some (StringRef.ofCStr ValueToken.getLiteralData)

/-- The method `AIDiagnosticConsumer::Init`: the new members and the events. -/
def Init (env : Environ) (CI : CompilerInstance) (self : AIDiagnosticConsumer) :
    AIDiagnosticConsumer × List Event :=
  match env.getenv "CLANG_AI_KEY" with
  | none =>
    ({ self with AK := none },
     elog ("FAILED to find API key for AI in clang. " ++
           "Please set the API key in the environment variable CLANG_AI_KEY.") [])
  | some AK =>
    let Model := (env.getenv "CLANG_AI_MODEL").getD defaultModel
    let REPLY_LANG := (env.getenv "CLANG_AI_REPLY_LANG").getD defaultReplyLang
    let ROLE_PROMPT := (env.getenv "CLANG_AI_ROLE_PROMPT").getD defaultRolePrompt
    let RolePrompt := ROLE_PROMPT.text ++ "Please reply in " ++ REPLY_LANG.text ++ ". "
    let RolePrompt := RolePrompt ++ translateInstruction
    let self := { self with AK := some AK, Model := some Model, REPLY_LANG := some REPLY_LANG,
                            ROLE_PROMPT := some ROLE_PROMPT, RolePrompt := RolePrompt }
    match CI.getPreprocessor with
    | none => (self, [])
    | some PP =>
      match GetLiteralMacroValue PP "_GLIBCXX_RELEASE" with
      | some StdLibCXXVersion =>
        ({ self with StdlibVersion := "libstdc++ " ++ StdLibCXXVersion }, [])
      | none =>
        match GetLiteralMacroValue PP "_LIBCPP_VERSION" with
        | some LibCXXVersion =>
          ({ self with StdlibVersion := "libc++ " ++ LibCXXVersion }, [])
        | none => (self, [])

/-- The constructor of the consumer (`createAIDiagnosticConsumer`): `Init` run
on the default members. -/
def createAIDiagnosticConsumer (env : Environ) (CI : CompilerInstance) :
    AIDiagnosticConsumer × List Event :=
  Init env CI {}

/-- The call `Lexer::getSourceText(SrcMgr.getExpansionRange(R), SrcMgr, LangOpts)`. -/
def Lexer.getSourceText (SrcMgr : SourceManager) (R : SourceRange) : String :=
  SrcMgr.getSourceText (SrcMgr.getExpansionRange R)

/-- The loop of `getPrompt` over the instantiation stack, from `Iter` to `End`:
each frame writes a newline, the source text of its entity and a newline. -/
def getPrompt.frames (SrcMgr : SourceManager) : List CodeSynthesisContext → String → String
  | [], OS => OS
  | Iter :: rest, OS =>
    getPrompt.frames SrcMgr rest
      (OS ++ "\n" ++ Lexer.getSourceText SrcMgr Iter.Entity.getSourceRange ++ "\n")

/-- The two header lines of the instantiation section. -/
def instantiationHeader : String :=
  "We're in the process of a template instantiation. " ++
  "The following were the instantiation stack: \n" ++
  "The instantiation is triggered by: \n"

/-- The method `AIDiagnosticConsumer::getPrompt`: the contents of `Prompt`
after the call, the stream `OS` appending to it. -/
def getPrompt (self : AIDiagnosticConsumer) (CI : CompilerInstance) (Prompt : String)
    (Info : Diagnostic) : String :=
  let OutStr := Info.FormatDiagnostic
  let SrcMgr := Info.getSourceManager
  let SpellingLoc := SrcMgr.getSpellingLoc Info.getLocation
  let FileName := SrcMgr.print SpellingLoc
  let OS := Prompt ++ "Error Message: '" ++ FileName ++ "': " ++ OutStr ++ ". "
  let OS := OS ++ "The error message is produced by Clang. "
  let OS := if self.StdlibVersion ≠ "" then
              OS ++ "The used standard library is " ++ self.StdlibVersion ++ ". "
            else OS
  match CI.getSema with
  | none => OS
  | some S =>
    if S.inTemplateInstantiation then
      match S.CodeSynthesisContexts with
      | [] => OS
      | Iter :: rest =>
        let OS := OS ++ instantiationHeader
        let OS := OS ++ SrcMgr.print Iter.PointOfInstantiation
        let OS := OS ++ "\n"
        let FID := SrcMgr.getFileID Iter.PointOfInstantiation
        let OS := match SrcMgr.getBufferDataOrNone FID with
                  | some Filebuffer =>
                    OS ++ "The file containing the instantiation point: " ++ Filebuffer
                  | none => OS
        getPrompt.frames SrcMgr (Iter :: rest) OS
    else
      match S.getCurLexicalContext with
      | some CurDC =>
        OS ++ "The current parsing context is: " ++ Lexer.getSourceText SrcMgr CurDC.getSourceRange
      | none => OS

/-! ## JSON values (`llvm::json`, external)

The library is LLVM's; the model follows its `Value`, `Object`, the compact
output of `operator<<` and the recursive-descent `parse`. -/

/-- A JSON value (`llvm::json::Value`).  A number keeps its lexeme (the program
never reads one), and the properties of an object are kept in increasing order
of their keys, one per key: the order in which the library writes them. -/
inductive Value where
  | null
  | boolean (b : Bool)
  | number (lexeme : String)
  | string (s : String)
  | array (elems : List Value)
  | object (props : List (String × Value))

/-- The properties of a JSON object (`llvm::json::Object`). -/
abbrev Object := List (String × Value)

/-- The order of `StringRef`, which sorts the keys: the first character that
differs decides, and a proper initial segment comes first. -/
def ltChars : List Char → List Char → Bool
  | _, [] => false
  | [], _ :: _ => true
  | a :: as, b :: bs =>
    if a.toNat < b.toNat then true
    else if b.toNat < a.toNat then false
    else ltChars as bs

/-- The order of two keys (`ObjectKey`, compared as `StringRef`). -/
def keyLt (K K' : String) : Bool := ltChars K.data K'.data

/-- Writing through `O[K]`: the property is created, or its value replaced. -/
def Object.set (K : String) (V : Value) : Object → Object
  | [] => [(K, V)]
  | (K', V') :: rest =>
    if K = K' then (K, V) :: rest
    else if keyLt K K' then (K, V) :: (K', V') :: rest
    else (K', V') :: Object.set K V rest

/-- The members `try_emplace` and `insert`, used by the initialiser-list
constructor as well: a property is added unless its key is already there. -/
def Object.insert (K : String) (V : Value) : Object → Object
  | [] => [(K, V)]
  | (K', V') :: rest =>
    if K = K' then (K', V') :: rest
    else if keyLt K K' then (K, V) :: (K', V') :: rest
    else (K', V') :: Object.insert K V rest

/-- The initialiser-list constructor of `Object`. -/
def Object.ofList (Properties : List (String × Value)) : Object :=
  Properties.foldl (fun O P => Object.insert P.1 P.2 O) []

/-- The member `Object::get`: the value of a key, or null. -/
def Object.get (O : Object) (K : String) : Option Value :=
  match O with
  | [] => none
  | (K', V) :: rest => if K = K' then some V else Object.get rest K

/-- The member `Value::getAsObject`: null unless the value is an object. -/
def Value.getAsObject : Value → Option Object
  | .object O => some O
  | _ => none

/-- The member `Value::getAsArray`: null unless the value is an array. -/
def Value.getAsArray : Value → Option (List Value)
  | .array A => some A
  | _ => none

/-- The member `Value::getAsString`: empty unless the value is a string. -/
def Value.getAsString : Value → Option String
  | .string S => some S
  | _ => none

/-- The member `Value::getAsBoolean`. -/
def Value.getAsBoolean : Value → Option Bool
  | .boolean B => some B
  | _ => none

/-- The member `Object::getObject`: the object under a key, or null. -/
def Object.getObject (O : Object) (K : String) : Option Object :=
  (O.get K).bind Value.getAsObject

/-- The member `Object::getArray`: the array under a key, or null. -/
def Object.getArray (O : Object) (K : String) : Option (List Value) :=
  (O.get K).bind Value.getAsArray

/-- The member `Object::getString`: the string under a key, if there is one. -/
def Object.getString (O : Object) (K : String) : Option String :=
  (O.get K).bind Value.getAsString

/-- The member `Object::getBoolean`. -/
def Object.getBoolean (O : Object) (K : String) : Option Bool :=
  (O.get K).bind Value.getAsBoolean

/-! ### Output -/

/-- A lower-case hexadecimal digit. -/
def hexDigit (n : Nat) : Char :=
  if n < 10 then Char.ofNat (48 + n) else Char.ofNat (87 + n)

/-- How `quote` writes one character: a quote or backslash is preceded by a
backslash, other characters from U+0020 on are copied, and a control character
becomes a short escape or a four-digit hexadecimal one. -/
def escapeChar (C : Char) : List Char :=
  if C = '"' ∨ C = '\\' then ['\\', C]
  else if 0x20 ≤ C.toNat then [C]
  else if C = '\t' then ['\\', 't']
  else if C = '\n' then ['\\', 'n']
  else if C = '\r' then ['\\', 'r']
  else ['\\', 'u', hexDigit (C.toNat / 4096 % 16), hexDigit (C.toNat / 256 % 16),
        hexDigit (C.toNat / 16 % 16), hexDigit (C.toNat % 16)]

/-- The escaped characters of a string, without the surrounding quotes. -/
def escape : List Char → List Char
  | [] => []
  | C :: S => escapeChar C ++ escape S

/-- The function `quote`: a string literal of JSON. -/
def quote (S : String) : List Char :=
  '"' :: (escape S.data ++ ['"'])

mutual
/-- The text `OStream::value` writes with no indentation. -/
def Value.serialize : Value → List Char
  | .null => "null".data
  | .boolean b => if b then "true".data else "false".data
  | .number l => l.data
  | .string s => quote s
  | .array A => '[' :: (serializeElements A ++ [']'])
  | .object O => Char.ofNat 0x7b :: (serializeProperties O ++ [Char.ofNat 0x7d])
/-- The elements of an array, separated by commas. -/
def serializeElements : List Value → List Char
  | [] => []
  | [V] => V.serialize
  | V :: W :: rest => V.serialize ++ ',' :: serializeElements (W :: rest)
/-- The properties of an object, separated by commas. -/
def serializeProperties : List (String × Value) → List Char
  | [] => []
  | [(K, V)] => quote K ++ ':' :: V.serialize
  | (K, V) :: P :: rest => quote K ++ ':' :: V.serialize ++ ',' :: serializeProperties (P :: rest)
end

/-- Printing a value to a string stream (`OS << Value`). -/
def Value.toString (V : Value) : String := ⟨V.serialize⟩

/-! ### Parsing

The parser works on the characters that remain; `next()` at the end of the
input yields NUL without advancing.  An error is its message: the position
that `llvm::toString` adds in front of it is left out. -/

/-- The member `Parser::eatWhitespace`. -/
def eatWhitespace : List Char → List Char
  | [] => []
  | C :: P => if C = ' ' ∨ C = '\r' ∨ C = '\n' ∨ C = '\t' then eatWhitespace P else C :: P

/-- The characters `isNumber` accepts in a number token. -/
def isNumber (C : Char) : Bool :=
  C.isDigit || C == 'e' || C == 'E' || C == '+' || C == '-' || C == '.'

/-- The test `std::isxdigit`. -/
def isxdigit (C : Char) : Bool :=
  C.isDigit || ('a'.toNat ≤ C.toNat && C.toNat ≤ 'f'.toNat) ||
    ('A'.toNat ≤ C.toNat && C.toNat ≤ 'F'.toNat)

/-- The value of a hexadecimal digit, as `Parse4Hex` computes it. -/
def hexValue (C : Char) : Nat :=
  if '9'.toNat < C.toNat then (if 'a'.toNat ≤ C.toNat then C.toNat - 32 else C.toNat) - 'A'.toNat + 10
  else C.toNat - '0'.toNat

/-- The lambda `Parse4Hex`: the UTF-16 code unit four hexadecimal digits spell,
or nothing (the error `Invalid \u escape sequence`). -/
def Parse4Hex : List Char → Option (Nat × List Char)
  | a :: b :: c :: d :: P =>
    if isxdigit a && isxdigit b && isxdigit c && isxdigit d then
      some (((hexValue a * 16 + hexValue b) * 16 + hexValue c) * 16 + hexValue d, P)
    else none
  | _ => none

/-- The character U+FFFD, which stands for an unpaired surrogate. -/
def replacementChar : Char := Char.ofNat 0xFFFD

/-- The member `Parser::parseUnicode` after its first `Parse4Hex`: a code unit
of the basic plane is appended, an unpaired surrogate is replaced by U+FFFD, and
a leading surrogate followed by an escaped trailing one gives one character,
combined with bitwise or as the library does. -/
def parseUnicode : Nat → List Char → List Char → Except String (List Char × List Char)
  | First, P, Out =>
    if First < 0xD800 ∨ 0xE000 ≤ First then .ok (Out ++ [Char.ofNat First], P)
    else if 0xDC00 ≤ First then .ok (Out ++ [replacementChar], P)
    else
      match P with
      | c1 :: c2 :: P2 =>
        if c1 = '\\' ∧ c2 = 'u' then
          match P2 with
          | a :: b :: c :: d :: P3 =>
            if isxdigit a && isxdigit b && isxdigit c && isxdigit d then
              let Second := ((hexValue a * 16 + hexValue b) * 16 + hexValue c) * 16 + hexValue d
              if Second < 0xDC00 ∨ 0xE000 ≤ Second then
                parseUnicode Second P3 (Out ++ [replacementChar])
              else
                .ok (Out ++ [Char.ofNat (0x10000 ||| ((First - 0xD800) <<< 10) |||
                  (Second - 0xDC00))], P3)
            else .error "Invalid \\u escape sequence"
          | _ => .error "Invalid \\u escape sequence"
        else .ok (Out ++ [replacementChar], P)
      | _ => .ok (Out ++ [replacementChar], P)

/-- The loop of `Parser::parseString`, the opening quote consumed; the first
argument bounds the number of iterations. -/
def parseStringLoop : Nat → List Char → List Char → Except String (String × List Char)
  | 0, _, _ => .error "Unterminated string"
  | n + 1, P, Out =>
    match P with
    | [] => .error "Unterminated string"
    | C :: P =>
      if C = '"' then .ok (⟨Out⟩, P)
      else if P.isEmpty then .error "Unterminated string"
      else if C.toNat < 0x20 then .error "Control character in string"
      else if C ≠ '\\' then parseStringLoop n P (Out ++ [C])
      else
        match P with
        | [] => .error "Invalid escape sequence"
        | E :: P =>
          if E = '"' ∨ E = '\\' ∨ E = '/' then parseStringLoop n P (Out ++ [E])
          else if E = 'b' then parseStringLoop n P (Out ++ [Char.ofNat 8])
          else if E = 'f' then parseStringLoop n P (Out ++ [Char.ofNat 12])
          else if E = 'n' then parseStringLoop n P (Out ++ ['\n'])
          else if E = 'r' then parseStringLoop n P (Out ++ ['\r'])
          else if E = 't' then parseStringLoop n P (Out ++ ['\t'])
          else if E = 'u' then
            match Parse4Hex P with
            | none => .error "Invalid \\u escape sequence"
            | some (First, P) =>
              match parseUnicode First P Out with
              | .error e => .error e
              | .ok (Out, P) => parseStringLoop n P Out
          else .error "Invalid escape sequence"

/-- The member `Parser::parseString`: every iteration consumes a character, so
the length of the input bounds the loop. -/
def parseString (P : List Char) : Except String (String × List Char) :=
  parseStringLoop P.length P []

/-- An optional sign in front of a number. -/
def dropSign : List Char → List Char
  | [] => []
  | C :: S => if C = '+' ∨ C = '-' then S else C :: S

/-- Whether `strtod` converts the whole of a token made of the characters of
`isNumber`: an optional sign, digits with at most one point and at least one
digit, and optionally an exponent with at least one digit. -/
def strtodConsumesAll (S : List Char) : Bool :=
  let S := dropSign S
  let whole := S.takeWhile Char.isDigit
  let S := S.dropWhile Char.isDigit
  let fraction := match S with
    | [] => []
    | C :: S => if C = '.' then S.takeWhile Char.isDigit else []
  let S := match S with
    | [] => []
    | C :: S => if C = '.' then S.dropWhile Char.isDigit else C :: S
  if whole.isEmpty && fraction.isEmpty then false
  else
    match S with
    | [] => true
    | C :: S =>
      if C = 'e' ∨ C = 'E' then
        let S := dropSign S
        !(S.takeWhile Char.isDigit).isEmpty && (S.dropWhile Char.isDigit).isEmpty
      else false

/-- The member `Parser::parseNumber`: the token is the first character and the
characters of `isNumber` that follow; it is a number when `strtoll`, `strtoull`
or `strtod` converts all of it, which is when `strtod` does. -/
def parseNumber (First : Char) (P : List Char) : Except String (Value × List Char) :=
  let S := First :: P.takeWhile isNumber
  if strtodConsumesAll S then .ok (.number ⟨S⟩, P.dropWhile isNumber)
  else .error "Invalid JSON value (number?)"

/-- The rest of the input after the given characters, if it starts with them. -/
def expectChars : List Char → List Char → Option (List Char)
  | [], P => some P
  | _ :: _, [] => none
  | c :: cs, d :: P => if c = d then expectChars cs P else none

/-- The message of a parse that ran out of recursion budget.  The budget `parse`
gives exceeds the length of the input, which bounds both the nesting and the
number of elements, so that `parse` never reports it
(`parse_ne_recursionLimit`). -/
def recursionLimit : String := "recursion limit"

/-- The loop of `parseValue` over the elements of an array, after the opening
bracket when the array is not empty.  The first argument parses one value. -/
def parseArrayLoop (parseValue : List Char → Except String (Value × List Char)) :
    Nat → List Char → List Value → Except String (Value × List Char)
  | 0, _, _ => .error recursionLimit
  | n + 1, P, A =>
    match parseValue P with
    | .error e => .error e
    | .ok (V, P) =>
      match eatWhitespace P with
      | [] => .error "Expected , or ] after array element"
      | C :: P =>
        if C = ',' then parseArrayLoop parseValue n (eatWhitespace P) (A ++ [V])
        else if C = ']' then .ok (.array (A ++ [V]), P)
        else .error "Expected , or ] after array element"

/-- The loop of `parseValue` over the properties of an object, after the opening
brace when the object is not empty.  A value that fails to parse ends the
parse with its error, as for an element of an array. -/
def parseObjectLoop (parseValue : List Char → Except String (Value × List Char)) :
    Nat → List Char → Object → Except String (Value × List Char)
  | 0, _, _ => .error recursionLimit
  | n + 1, P, O =>
    match P with
    | [] => .error "Expected object key"
    | C :: P =>
      if C ≠ '"' then .error "Expected object key"
      else
        match parseString P with
        | .error e => .error e
        | .ok (K, P) =>
          match eatWhitespace P with
          | [] => .error "Expected : after object key"
          | C :: P =>
            if C ≠ ':' then .error "Expected : after object key"
            else
              match parseValue (eatWhitespace P) with
              | .error e => .error e
              | .ok (V, P) =>
                match eatWhitespace P with
                | [] => .error "Expected , or \x7d after object property"
                | C :: P =>
                  if C = ',' then parseObjectLoop parseValue n (eatWhitespace P) (Object.set K V O)
                  else if C = Char.ofNat 0x7d then .ok (.object (Object.set K V O), P)
                  else .error "Expected , or \x7d after object property"

/-- The member `Parser::parseValue`; the first argument bounds the nesting. -/
def parseValue : Nat → List Char → Except String (Value × List Char)
  | 0, _ => .error recursionLimit
  | fuel + 1, P =>
    match eatWhitespace P with
    | [] => .error "Unexpected EOF"
    | C :: P =>
      if C = 'n' then
        match expectChars ['u', 'l', 'l'] P with
        | some P => .ok (.null, P)
        | none => .error "Invalid JSON value (null?)"
      else if C = 't' then
        match expectChars ['r', 'u', 'e'] P with
        | some P => .ok (.boolean true, P)
        | none => .error "Invalid JSON value (true?)"
      else if C = 'f' then
        match expectChars ['a', 'l', 's', 'e'] P with
        | some P => .ok (.boolean false, P)
        | none => .error "Invalid JSON value (false?)"
      else if C = '"' then
        match parseString P with
        | .ok (S, P) => .ok (.string S, P)
        | .error e => .error e
      else if C = '[' then
        match eatWhitespace P with
        | [] => parseArrayLoop (parseValue fuel) fuel [] []
        | D :: Q =>
          if D = ']' then .ok (.array [], Q)
          else parseArrayLoop (parseValue fuel) fuel (D :: Q) []
      else if C = Char.ofNat 0x7b then
        match eatWhitespace P with
        | [] => parseObjectLoop (parseValue fuel) fuel [] []
        | D :: Q =>
          if D = Char.ofNat 0x7d then .ok (.object [], Q)
          else parseObjectLoop (parseValue fuel) fuel (D :: Q) []
      else if isNumber C then parseNumber C P
      else .error "Invalid JSON value"

/-- The function `llvm::json::parse`: one value, then nothing but white
space. -/
def parse (JSON : String) : Except String Value :=
  match parseValue (JSON.length + 1) JSON.data with
  | .error e => .error e
  | .ok (E, P) =>
    match eatWhitespace P with
    | [] => .ok E
    | _ :: _ => .error "Text after end of document"

/-- What the budget lemmas establish for a parser of values on inputs shorter
than the bound: it never reports the recursion limit, and a value it returns
has consumed input. -/
def WithinBudget (parseValue : List Char → Except String (Value × List Char)) (bound : Nat) :
    Prop :=
  ∀ P : List Char, P.length < bound →
    (∀ e, parseValue P = .error e → e ≠ recursionLimit) ∧
    (∀ V P', parseValue P = .ok (V, P') → P'.length < P.length)

/-! ## The consumer: `HandleDiagnostic` -/

/-- The struct `MemoryStruct`: the response buffer (null, or its `size`
characters, which a terminating NUL follows) and its size. -/
structure MemoryStruct where
  response : Option String := none
  size : Nat := 0

/-- The function `write_callback`, with an allocation that succeeds: the data
are copied at offset `size` and the buffer is terminated again.  The result is
the new `MemoryStruct` and the value returned, `realsize`. -/
def write_callback (data : String) (mem : MemoryStruct) : MemoryStruct × Nat :=
  let realsize := data.length
  let response : String := ⟨(mem.response.getD "").data.take mem.size ++ data.data⟩
  ({ response := some response, size := mem.size + realsize }, realsize)

/-- A result code of libcurl (`CURLcode`). -/
abbrev CURLcode := Nat

/-- The code of a transfer that succeeded. -/
def CURLE_OK : CURLcode := 0

/-- The behaviour of libcurl during one call of `HandleDiagnostic`: whether
`curl_easy_init` returns a handle and, for the request set on the handle, the
code `curl_easy_perform` returns together with the pieces of the response body
it passes to the write callback, in order. -/
structure Curl where
  curl_easy_init : Bool
  curl_easy_perform : HttpRequest → CURLcode × List String

/-- The endpoint every request is sent to. -/
def endpointURL : String :=
  "https://dashscope.aliyuncs.com/compatible-mode/v1/chat/completions"

/-- The constructor `json::Value(const char *)`: a string value holding the C
string.  The library replaces ill-formed UTF-8 in it by U+FFFD (after an
assertion in a debug build); the text of this development is well-formed UTF-8,
on which that repair changes nothing. -/
def Value.ofCStr (V : Option CString) : Value := .string (StringRef.ofCStr V)

/-- The object `Request` that `HandleDiagnostic` builds for a prompt. -/
def HandleDiagnostic.Request (self : AIDiagnosticConsumer) (Prompt : String) : Object :=
  let Request := Object.ofList [("model", Value.ofCStr self.Model),
                                ("enable_search", Value.boolean true)]
  let Messages : List Value := []
  let Messages := Messages ++ [Value.object (Object.ofList
    [("role", Value.ofCStr (some ⟨"system", by decide⟩)),
     ("content", Value.ofCStr (some (c_str self.RolePrompt)))])]
  let Messages := Messages ++ [Value.object (Object.ofList
    [("role", Value.ofCStr (some ⟨"user", by decide⟩)),
     ("content", Value.ofCStr (some (c_str Prompt)))])]
  let Request := Object.insert "messages" (Value.array Messages) Request
  let SearchOptions : Object := []
  let SearchOptions := Object.insert "forced_search" (Value.boolean true) SearchOptions
  Object.insert "search_options" (Value.object SearchOptions) Request

/-- The options `HandleDiagnostic` sets on the handle: the URL, the two headers
and, as `CURLOPT_POSTFIELDS`, the C string of the serialised request. -/
def HandleDiagnostic.options (self : AIDiagnosticConsumer) (AK : CString) (Prompt : String) :
    HttpRequest :=
  let Authorization := "Authorization: Bearer " ++ AK.text
  let headers := [(c_str Authorization).text, "Content-Type: application/json"]
  let RequestData := (Value.object (HandleDiagnostic.Request self Prompt)).toString
  { URL := endpointURL, HTTPHEADER := headers, POSTFIELDS := (c_str RequestData).text }

/-- The loop of the response lambda over `*Array`: an entry whose content is
a string is printed after the label; `getAsObject()` and `getObject("message")`
are dereferenced without a test. -/
def choicesLoop : List Value → List Event → Run
  | [], out => ⟨out, .returned⟩
  | Choice :: rest, out =>
    match Choice.getAsObject with
    | none => ⟨out, .nullDereference⟩
    | some O =>
      match O.getObject "message" with
      | none => ⟨out, .nullDereference⟩
      | some Message =>
        match Message.getString "content" with
        | some Content =>
          choicesLoop rest (out ++ elog "AI Suggestion: " [] ++ [Event.errs (Content ++ "\n")])
        | none => choicesLoop rest out

/-- The lambda `HandleDiagnostic` applies to the response body. -/
def responseLambda (Response : String) : Run :=
  match parse Response with
  | .error Err => ⟨elog "AI response error: %0\n" [Err], .returned⟩
  | .ok ExpectedResponseJson =>
    match ExpectedResponseJson.getAsObject with
    | none => ⟨[], .nullDereference⟩
    | some O =>
      if (O.getObject "error").isSome then ⟨elog "AI Response Error: %0\n" [Response], .returned⟩
      else
        match O.getArray "choices" with
        | none => ⟨[], .nullDereference⟩
        | some Array => choicesLoop Array []

/-- The response body the lambda receives: the buffer the write callback
filled with the pieces of the body, read as a C string. -/
def responseBody (chunks : List String) : String :=
  let Response : MemoryStruct := chunks.foldl (fun mem data => (write_callback data mem).1) {}
  StringRef.ofCStr (Response.response.map c_str)

/-- The method `AIDiagnosticConsumer::HandleDiagnostic`: the members after the
call and the run.  No member is assigned on any path. -/
def HandleDiagnostic (self : AIDiagnosticConsumer) (CI : CompilerInstance) (curl : Curl)
    (DiagLevel : Level) (Info : Diagnostic) : AIDiagnosticConsumer × Run :=
  match self.AK with
  | none => (self, ⟨[], .returned⟩)
  | some AK =>
    if DiagLevel ≤ Level.Warning then (self, ⟨[], .returned⟩)
    else
      let Prompt := getPrompt self CI "" Info
      if curl.curl_easy_init then
        let options := HandleDiagnostic.options self AK Prompt
        let (res, chunks) := curl.curl_easy_perform options
        if res = CURLE_OK then
          let r := responseLambda (responseBody chunks)
          (self, ⟨Event.perform options :: r.events, r.status⟩)
        else (self, ⟨[Event.perform options], .returned⟩)
      else (self, ⟨[], .returned⟩)

/-! ## The specification's reading of the prompt

These definitions follow the words of the specification, to be compared with
`getPrompt`. -/

/-- The sentence that opens the prompt: location, message, a full stop. -/
def errorSentence (Info : Diagnostic) : String :=
  "Error Message: '" ++
    Info.getSourceManager.print (Info.getSourceManager.getSpellingLoc Info.getLocation) ++
    "': " ++ Info.FormatDiagnostic ++ ". "

/-- The fixed phrase that attributes the message to the compiler. -/
def attributionPhrase : String := "The error message is produced by Clang. "

/-- The phrase naming the standard library, present when one was detected. -/
def libraryPhrase (self : AIDiagnosticConsumer) : String :=
  if self.StdlibVersion = "" then ""
  else "The used standard library is " ++ self.StdlibVersion ++ ". "

/-- The base text: error sentence, attribution phrase, optional library
phrase. -/
def baseText (self : AIDiagnosticConsumer) (Info : Diagnostic) : String :=
  errorSentence Info ++ attributionPhrase ++ libraryPhrase self

/-- The block of one instantiation frame: a newline, the source text of its
entity, a newline. -/
def frameBlock (SrcMgr : SourceManager) (f : CodeSynthesisContext) : String :=
  "\n" ++ Lexer.getSourceText SrcMgr f.Entity.getSourceRange ++ "\n"

/-- The blocks of the frames, in the order of the list. -/
def frameBlocks (SrcMgr : SourceManager) : List CodeSynthesisContext → String
  | [] => ""
  | f :: fs => frameBlock SrcMgr f ++ frameBlocks SrcMgr fs

/-- The contents of the file containing a location, under their label, when
the buffer is available. -/
def fileContents (SrcMgr : SourceManager) (L : SourceLocation) : String :=
  match SrcMgr.getBufferDataOrNone (SrcMgr.getFileID L) with
  | some Filebuffer => "The file containing the instantiation point: " ++ Filebuffer
  | none => ""

/-- The context section the specification describes: the instantiation section
when an instantiation is active with at least one frame, the lexical context
when none is active and there is a current declaration, nothing otherwise. -/
def contextSection (CI : CompilerInstance) (Info : Diagnostic) : String :=
  let SrcMgr := Info.getSourceManager
  match CI.getSema with
  | none => ""
  | some S =>
    match S.inTemplateInstantiation, S.CodeSynthesisContexts, S.getCurLexicalContext with
    | true, f1 :: rest, _ =>
      instantiationHeader ++ SrcMgr.print f1.PointOfInstantiation ++ "\n" ++
        fileContents SrcMgr f1.PointOfInstantiation ++ frameBlocks SrcMgr (f1 :: rest)
    | true, [], _ => ""
    | false, _, some CurDC =>
      "The current parsing context is: " ++ Lexer.getSourceText SrcMgr CurDC.getSourceRange
    | false, _, none => ""

/-- The system prompt as the specification composes it: the translation
sentence only for a reply language other than English. -/
def specSystemPrompt (role lang : String) : String :=
  role ++ "Please reply in " ++ lang ++ ". " ++
    (if lang = "English" then "" else translateInstruction)

/-! ## Concrete inputs -/

/-- A source manager over one file. -/
def exampleSrcMgr : SourceManager where
  getSpellingLoc := fun L => L
  print := fun L => if L = 0 then "<invalid loc>" else "test/unique.cpp:17:4"
  getFileID := fun _ => 1
  getBufferDataOrNone := fun F => if F = 1 then some "void func() \x7b A a; \x7d" else none
  getExpansionRange := fun R => ⟨R, true⟩
  getSourceText := fun R => if R.Range.Begin = 10 then "void func() \x7b A a; \x7d" else ""

/-- An error reported in that file. -/
def exampleInfo : Diagnostic where
  FormatDiagnostic := "call to implicitly-deleted default constructor"
  getLocation := 42
  getSourceManager := exampleSrcMgr

/-- An environment in which only the key is set. -/
def envKeyOnly : Environ where
  getenv := fun name => if name = "CLANG_AI_KEY" then some ⟨"sk-test", by decide⟩ else none

/-- An environment with the key and `CLANG_AI_REPLY_LANG=English`, as in the
second run of `test/unique.cpp`. -/
def envEnglish : Environ where
  getenv := fun name =>
    if name = "CLANG_AI_KEY" then some ⟨"sk-test", by decide⟩
    else if name = "CLANG_AI_REPLY_LANG" then some ⟨"English", by decide⟩
    else none

/-- A response whose `error` field is a string, next to a `choices` array. -/
def errorStringBody : String :=
  "\x7b\"error\":\"invalid_api_key\",\"choices\":[\x7b\"message\":\x7b\"content\":\"Fix: add -std=c++17\"\x7d\x7d]\x7d"

/-- A response whose `error` field is an object, next to a `choices` array. -/
def errorObjectBody : String :=
  "\x7b\"error\":\x7b\"message\":\"invalid_api_key\"\x7d,\"choices\":[\x7b\"message\":\x7b\"content\":\"Fix: add -std=c++17\"\x7d\x7d]\x7d"

/-- A response whose second choice has no `message` object. -/
def missingMessageBody : String :=
  "\x7b\"choices\":[\x7b\"message\":\x7b\"content\":\"Fix: add -std=c++17\"\x7d\x7d,\x7b\"index\":1\x7d]\x7d"

/-- A response cut off before its last character, the closing brace. -/
def truncatedBody : String :=
  "\x7b\"choices\":[\x7b\"message\":\x7b\"content\":\"Fix: add -std=c++17\"\x7d\x7d]"

/-- The content string of a choice, when it is an object whose `message` is an
object with a string `content`. -/
def contentOf (Choice : Value) : Option String :=
  ((Choice.getAsObject).bind (fun O => O.getObject "message")).bind
    (fun M => M.getString "content")

/-- The events of the suggestions the specification expects for the entries of
`choices`: label and content for each entry that carries a content string. -/
def suggestionEvents : List Value → List Event
  | [] => []
  | Choice :: rest =>
    match contentOf Choice with
    | some Content =>
      Event.elog "AI Suggestion: \n" :: Event.errs (Content ++ "\n") :: suggestionEvents rest
    | none => suggestionEvents rest

/-- A response that is a JSON document followed by a NUL character and more
text. -/
def nulTailBody : String :=
  "\x7b\"choices\":[\x7b\"message\":\x7b\"content\":\"Fix: add -std=c++17\"\x7d\x7d]\x7d\x00\x7d trailing"

/-- A libcurl whose transfer succeeds and delivers the given pieces. -/
def curlDelivering (chunks : List String) : Curl where
  curl_easy_init := true
  curl_easy_perform := fun _ => (CURLE_OK, chunks)

/-- A preprocessor in which `_GLIBCXX_RELEASE` is defined as the literal 13, by
a line of a buffer that goes on after the literal, and `_LIBCPP_VERSION` is
not defined. -/
def glibcxxPP : Preprocessor where
  getMacroInfo := fun name =>
    if name = "_GLIBCXX_RELEASE" then
      some ⟨[⟨true, 2, some ⟨"13\n#define _GLIBCXX_USE_DUAL_ABI 1\n", by decide⟩⟩]⟩
    else none

/-- The request object the specification describes, its properties in the
order of their keys: the model, the two search flags and the two messages. -/
def requestObject (Model RolePrompt Prompt : String) : Object :=
  [("enable_search", .boolean true),
   ("messages", .array
      [.object [("content", .string RolePrompt), ("role", .string "system")],
       .object [("content", .string Prompt), ("role", .string "user")]]),
   ("model", .string Model),
   ("search_options", .object [("forced_search", .boolean true)])]

/-- An environment with the key and a short role prompt. -/
def envShortRole : Environ where
  getenv := fun name =>
    if name = "CLANG_AI_KEY" then some ⟨"sk-test", by decide⟩
    else if name = "CLANG_AI_ROLE_PROMPT" then some ⟨"Be brief. ", by decide⟩
    else if name = "CLANG_AI_REPLY_LANG" then some ⟨"English", by decide⟩
    else none

/-- A source manager over a file that holds a NUL character in a comment. -/
def nulSrcMgr : SourceManager where
  getSpellingLoc := fun L => L
  print := fun _ => "t.cpp:1:18"
  getFileID := fun _ => 1
  getBufferDataOrNone := fun _ => some "int f() \x7b return x; /*\x00*/ \x7d"
  getExpansionRange := fun R => ⟨R, true⟩
  getSourceText := fun _ => "int f() \x7b return x; /*\x00*/ \x7d"

/-- An error inside the function of that file. -/
def nulInfo : Diagnostic where
  FormatDiagnostic := "use of undeclared identifier 'x'"
  getLocation := 18
  getSourceManager := nulSrcMgr

/-- The compiler instance while that function is parsed. -/
def nulCI : CompilerInstance := ⟨none, some ⟨false, [], some ⟨⟨1, 30⟩⟩⟩⟩

/-- A compiler instance without preprocessor or semantic analysis. -/
def bareCI : CompilerInstance := ⟨none, none⟩

/-- A compiler instance that reports an instantiation with no frame. -/
def emptyStackCI : CompilerInstance :=
  ⟨none, some ⟨true, [], some ⟨⟨10, 20⟩⟩⟩⟩

end AIDiag

namespace AIDiag

/-! ## Properties of the prompt -/

theorem getPrompt.frames_eq (SrcMgr : SourceManager) (fs : List CodeSynthesisContext) :
    ∀ OS : String, getPrompt.frames SrcMgr fs OS = OS ++ frameBlocks SrcMgr fs := by
  induction fs with
  | nil => intro OS; simp [getPrompt.frames, frameBlocks]
  | cons f fs ih =>
    intro OS
    simp [getPrompt.frames, frameBlocks, frameBlock, ih, String.append_assoc]

theorem getPrompt_eq (self : AIDiagnosticConsumer) (CI : CompilerInstance) (Info : Diagnostic) :
    getPrompt self CI "" Info = baseText self Info ++ contextSection CI Info := by
  unfold getPrompt baseText contextSection libraryPhrase errorSentence attributionPhrase
  cases hS : CI.getSema with
  | none =>
    by_cases hv : self.StdlibVersion = "" <;>
      simp only [hv, String.append_assoc, String.append_empty, String.empty_append, ne_eq,
        not_true_eq_false, not_false_eq_true, if_true, if_false]
  | some S =>
    obtain ⟨inst, stack, ctx⟩ := S
    by_cases hv : self.StdlibVersion = "" <;> cases inst <;> cases stack <;> cases ctx <;>
      simp only [hv, String.append_assoc, String.append_empty, String.empty_append, ne_eq,
        not_true_eq_false, not_false_eq_true, if_true, if_false, getPrompt.frames_eq,
        fileContents, Bool.false_eq_true] <;>
      split <;>
      simp only [String.append_assoc, String.append_empty, String.empty_append]

/-- C5: for every diagnostic, with rendered message M and spelling location
printed as P, and for every state of the consumer and of the compilation
context, the text `getPrompt` writes into an empty buffer begins with
`Error Message: 'P': M. ` immediately followed by the attribution phrase
`The error message is produced by Clang. `. -/
theorem getPrompt_begins_with_error_sentence (self : AIDiagnosticConsumer)
    (CI : CompilerInstance) (Info : Diagnostic) :
    ∃ rest : String, getPrompt self CI "" Info =
      "Error Message: '" ++
        Info.getSourceManager.print (Info.getSourceManager.getSpellingLoc Info.getLocation) ++
        "': " ++ Info.FormatDiagnostic ++ ". " ++
        "The error message is produced by Clang. " ++ rest := by
  refine ⟨libraryPhrase self ++ contextSection CI Info, ?_⟩
  rw [getPrompt_eq]
  simp only [baseText, errorSentence, attributionPhrase, String.append_assoc]

/-- C7: when the compilation context reports an active template instantiation
and the stack of instantiation frames is empty, `getPrompt` returns exactly the
base text (error sentence, attribution phrase, optional library phrase): no
header, trigger location, file contents or lexical context follows. -/
theorem getPrompt_empty_instantiation_stack (self : AIDiagnosticConsumer)
    (CI : CompilerInstance) (Info : Diagnostic) (S : Sema)
    (hSema : CI.getSema = some S) (hActive : S.inTemplateInstantiation = true)
    (hEmpty : S.CodeSynthesisContexts = []) :
    getPrompt self CI "" Info = baseText self Info := by
  rw [getPrompt_eq]
  simp only [contextSection, hSema, hActive, hEmpty, String.append_empty]

set_option maxRecDepth 100000 in
/-- Witness of C7: a consumer that detected libc++ 17, on a context that reports
an instantiation with no frame (and has a current declaration). -/
theorem getPrompt_empty_instantiation_stack_witness :
    getPrompt { StdlibVersion := "libc++ 17" } emptyStackCI "" exampleInfo =
        baseText { StdlibVersion := "libc++ 17" } exampleInfo ∧
      baseText { StdlibVersion := "libc++ 17" } exampleInfo =
        "Error Message: 'test/unique.cpp:17:4': call to implicitly-deleted default constructor. " ++
        "The error message is produced by Clang. The used standard library is libc++ 17. " :=
  ⟨getPrompt_empty_instantiation_stack _ emptyStackCI exampleInfo
      ⟨true, [], some ⟨⟨10, 20⟩⟩⟩ rfl rfl rfl, by decide⟩

/-- The system prompt `Init` composes when the key is present. -/
theorem Init_RolePrompt (env : Environ) (CI : CompilerInstance) (AK : CString)
    (hKey : env.getenv "CLANG_AI_KEY" = some AK) :
    (createAIDiagnosticConsumer env CI).1.RolePrompt =
      ((env.getenv "CLANG_AI_ROLE_PROMPT").getD defaultRolePrompt).text ++ "Please reply in " ++
        ((env.getenv "CLANG_AI_REPLY_LANG").getD defaultReplyLang).text ++ ". " ++
        translateInstruction := by
  unfold createAIDiagnosticConsumer Init
  simp only [hKey]
  cases CI.getPreprocessor with
  | none => rfl
  | some PP =>
    simp only []
    cases GetLiteralMacroValue PP "_GLIBCXX_RELEASE" with
    | some v => rfl
    | none =>
      simp only []
      cases GetLiteralMacroValue PP "_LIBCPP_VERSION" <;> rfl

/-- C8, amended: for every configuration with the key present, the system
prompt is the role prompt (`CLANG_AI_ROLE_PROMPT` or the default), followed by
`Please reply in <language>. ` for the reply language (`CLANG_AI_REPLY_LANG`
or the default), followed by the translation sentence, which is appended
whatever the reply language is. -/
theorem Init_system_prompt (env : Environ) (CI : CompilerInstance) (AK : CString)
    (hKey : env.getenv "CLANG_AI_KEY" = some AK) :
    (createAIDiagnosticConsumer env CI).1.RolePrompt =
      ((env.getenv "CLANG_AI_ROLE_PROMPT").getD defaultRolePrompt).text ++ "Please reply in " ++
        ((env.getenv "CLANG_AI_REPLY_LANG").getD defaultReplyLang).text ++ ". " ++
        translateInstruction :=
  Init_RolePrompt env CI AK hKey

set_option maxRecDepth 100000 in
/-- Witness of C8: the environment of the second run of `test/unique.cpp`. -/
theorem Init_system_prompt_witness :
    (createAIDiagnosticConsumer envEnglish bareCI).1.RolePrompt =
      defaultRolePrompt.text ++ "Please reply in English. " ++ translateInstruction := by
  have h := Init_system_prompt envEnglish bareCI ⟨"sk-test", by decide⟩ rfl
  rw [h]
  decide

set_option maxRecDepth 100000 in
/-- Counterexample to C8 as stated: with `CLANG_AI_REPLY_LANG=English` the key
is present and the translation sentence is appended all the same, so the
system prompt is not the one composed without it. -/
theorem Init_system_prompt_English_counterexample :
    envEnglish.getenv "CLANG_AI_KEY" ≠ none ∧
      (createAIDiagnosticConsumer envEnglish bareCI).1.REPLY_LANG.map CString.text = some "English" ∧
      (createAIDiagnosticConsumer envEnglish bareCI).1.RolePrompt ≠
        specSystemPrompt defaultRolePrompt.text "English" ∧
      (createAIDiagnosticConsumer envEnglish bareCI).1.RolePrompt =
        specSystemPrompt defaultRolePrompt.text "English" ++ translateInstruction := by
  refine ⟨by decide, by decide, by decide, by decide⟩

/-! ## Properties of `HandleDiagnostic` -/

theorem formatvGo_no_field (Vals : List String) (Fmt : List Char)
    (h : ∀ c ∈ Fmt, c ≠ Char.ofNat 0x7b) : formatvGo Vals .literal Fmt = Fmt := by
  induction Fmt with
  | nil => rfl
  | cons c cs ih =>
    have hc : c ≠ Char.ofNat 0x7b := h c (List.mem_cons_self _ _)
    have hcs : ∀ d ∈ cs, d ≠ Char.ofNat 0x7b := fun d hd => h d (List.mem_cons_of_mem _ hd)
    simp only [formatvGo, hc, if_false, ih hcs]

/-- The two error lines of the response lambda do not show their argument: the
format strings have no replacement field. -/
theorem elog_parse_error (Err : String) :
    elog "AI response error: %0\n" [Err] = [Event.elog "AI response error: %0\n\n"] := by
  have h : formatv "AI response error: %0\n" [Err] = "AI response error: %0\n" := by
    unfold formatv
    rw [formatvGo_no_field _ _ (by decide)]
  simp only [elog, h]
  rfl

theorem elog_response_error (Response : String) :
    elog "AI Response Error: %0\n" [Response] = [Event.elog "AI Response Error: %0\n\n"] := by
  have h : formatv "AI Response Error: %0\n" [Response] = "AI Response Error: %0\n" := by
    unfold formatv
    rw [formatvGo_no_field _ _ (by decide)]
  simp only [elog, h]
  rfl

theorem requestsOf_append (a b : List Event) :
    requestsOf (a ++ b) = requestsOf a ++ requestsOf b := by
  induction a with
  | nil => rfl
  | cons e a ih => cases e <;> simp [requestsOf, ih]

theorem requestsOf_choicesLoop (A : List Value) :
    ∀ out : List Event, requestsOf (choicesLoop A out).events = requestsOf out := by
  induction A with
  | nil => intro out; rfl
  | cons Choice rest ih =>
    intro out
    unfold choicesLoop
    split
    · rfl
    · split
      · rfl
      · split
        · rw [ih]; simp [requestsOf_append, elog, requestsOf]
        · exact ih out

theorem requestsOf_responseLambda (Response : String) :
    requestsOf (responseLambda Response).events = [] := by
  unfold responseLambda
  split
  · rfl
  · split
    · rfl
    · split
      · rfl
      · split
        · rfl
        · exact requestsOf_choicesLoop _ []

theorem Level.le_Warning_iff (L : Level) :
    L ≤ Level.Warning ↔ L ∈ [Level.Ignored, Level.Note, Level.Remark, Level.Warning] := by
  cases L <;> decide

/-- C1: `HandleDiagnostic` sends no request and writes nothing when the key
was not found by `Init` (`CLANG_AI_KEY` unset), whatever the severity, and when
the level is Ignored, Note, Remark or Warning, whatever the configuration.
A request is issued only with the key present and a level strictly above
Warning, and then at most one (exactly one when libcurl gives a handle). -/
theorem HandleDiagnostic_gate (env : Environ) (CI0 CI : CompilerInstance)
    (self : AIDiagnosticConsumer) (curl : Curl) (DiagLevel : Level) (Info : Diagnostic) :
    (env.getenv "CLANG_AI_KEY" = none →
      (HandleDiagnostic (createAIDiagnosticConsumer env CI0).1 CI curl DiagLevel Info).2 =
        ⟨[], .returned⟩) ∧
    (self.AK = none → (HandleDiagnostic self CI curl DiagLevel Info).2 = ⟨[], .returned⟩) ∧
    (DiagLevel ∈ [Level.Ignored, Level.Note, Level.Remark, Level.Warning] →
      (HandleDiagnostic self CI curl DiagLevel Info).2 = ⟨[], .returned⟩) ∧
    (requestsOf (HandleDiagnostic self CI curl DiagLevel Info).2.events).length ≤ 1 ∧
    (requestsOf (HandleDiagnostic self CI curl DiagLevel Info).2.events ≠ [] →
      self.AK ≠ none ∧ Level.Warning.toNat < DiagLevel.toNat) ∧
    (∀ AK, self.AK = some AK → Level.Warning.toNat < DiagLevel.toNat →
      curl.curl_easy_init = true →
      requestsOf (HandleDiagnostic self CI curl DiagLevel Info).2.events =
        [HandleDiagnostic.options self AK (getPrompt self CI "" Info)]) := by
  have hle : DiagLevel ≤ Level.Warning ↔ DiagLevel.toNat ≤ Level.Warning.toNat := Iff.rfl
  refine ⟨?_, ?_, ?_, ?_, ?_, ?_⟩
  · intro h
    simp [createAIDiagnosticConsumer, Init, h, HandleDiagnostic]
  · intro h
    simp [HandleDiagnostic, h]
  · intro h
    rw [← Level.le_Warning_iff] at h
    unfold HandleDiagnostic
    cases self.AK <;> simp [h]
  · unfold HandleDiagnostic
    cases self.AK with
    | none => simp [requestsOf]
    | some AK =>
      by_cases hl : DiagLevel ≤ Level.Warning
      · simp [hl, requestsOf]
      · by_cases hi : curl.curl_easy_init = true
        · simp only [hl, hi, if_true, if_false]
          split <;> simp [requestsOf, requestsOf_responseLambda]
        · simp [hl, hi, requestsOf]
  · intro h
    unfold HandleDiagnostic at h
    cases hAK : self.AK with
    | none => simp [hAK, requestsOf] at h
    | some AK =>
      refine ⟨by simp, ?_⟩
      by_cases hl : DiagLevel ≤ Level.Warning
      · simp [hAK, hl, requestsOf] at h
      · rw [hle] at hl
        omega
  · intro AK hAK hl hi
    have hl' : ¬ DiagLevel ≤ Level.Warning := by rw [hle]; omega
    unfold HandleDiagnostic
    simp only [hAK, hl', hi, if_true, if_false]
    split <;> simp [requestsOf, requestsOf_responseLambda]

/-- C9, amended: in a call whose response body, read as the C string the
lambda is given (the body up to its first NUL character), is not well-formed
JSON, one parse-error line is written in red after the request, no suggestion
is printed, the call returns, and the members of the consumer are what they
were, so that any later diagnostic is gated and handled as if the malformed
response had not occurred. -/
theorem HandleDiagnostic_malformed_response (self : AIDiagnosticConsumer)
    (CI : CompilerInstance) (curl : Curl) (DiagLevel : Level) (Info : Diagnostic)
    (AK : CString) (chunks : List String) (Err : String)
    (hKey : self.AK = some AK) (hLevel : ¬ DiagLevel ≤ Level.Warning)
    (hInit : curl.curl_easy_init = true)
    (hPerform : curl.curl_easy_perform
      (HandleDiagnostic.options self AK (getPrompt self CI "" Info)) = (CURLE_OK, chunks))
    (hParse : parse (responseBody chunks) = .error Err) :
    responseLambda (responseBody chunks) =
        ⟨[Event.elog "AI response error: %0\n\n"], .returned⟩ ∧
      HandleDiagnostic self CI curl DiagLevel Info =
        (self, ⟨[Event.perform (HandleDiagnostic.options self AK (getPrompt self CI "" Info)),
                 Event.elog "AI response error: %0\n\n"], .returned⟩) ∧
      ∀ (CI' : CompilerInstance) (curl' : Curl) (DiagLevel' : Level) (Info' : Diagnostic),
        HandleDiagnostic (HandleDiagnostic self CI curl DiagLevel Info).1 CI' curl' DiagLevel' Info' =
          HandleDiagnostic self CI' curl' DiagLevel' Info' := by
  have hLambda : responseLambda (responseBody chunks) =
      ⟨[Event.elog "AI response error: %0\n\n"], .returned⟩ := by
    simp only [responseLambda, hParse, elog_parse_error]
  have hRun : HandleDiagnostic self CI curl DiagLevel Info =
      (self, ⟨[Event.perform (HandleDiagnostic.options self AK (getPrompt self CI "" Info)),
               Event.elog "AI response error: %0\n\n"], .returned⟩) := by
    simp only [HandleDiagnostic, hKey, hLevel, hInit, hPerform, hLambda, if_true, if_false]
  refine ⟨hLambda, hRun, ?_⟩
  intro CI' curl' DiagLevel' Info'
  rw [hRun]

/-- Witness of C9: the key is set, an error is reported, and the transfer
delivers, in two pieces, a body cut off before its closing brace. -/
theorem HandleDiagnostic_malformed_response_witness :
    responseBody ["\x7b\"choices\":[\x7b\"message\":",
        "\x7b\"content\":\"Fix: add -std=c++17\"\x7d\x7d]"] = truncatedBody ∧
    parse truncatedBody = .error "Expected , or \x7d after object property" ∧
    HandleDiagnostic (createAIDiagnosticConsumer envKeyOnly bareCI).1 bareCI
        (curlDelivering ["\x7b\"choices\":[\x7b\"message\":",
          "\x7b\"content\":\"Fix: add -std=c++17\"\x7d\x7d]"]) Level.Error exampleInfo =
      ((createAIDiagnosticConsumer envKeyOnly bareCI).1,
       ⟨[Event.perform (HandleDiagnostic.options (createAIDiagnosticConsumer envKeyOnly bareCI).1
            ⟨"sk-test", by decide⟩
            (getPrompt (createAIDiagnosticConsumer envKeyOnly bareCI).1 bareCI "" exampleInfo)),
         Event.elog "AI response error: %0\n\n"],
        .returned⟩) :=
  ⟨by decide, rfl,
    (HandleDiagnostic_malformed_response (createAIDiagnosticConsumer envKeyOnly bareCI).1 bareCI
      (curlDelivering ["\x7b\"choices\":[\x7b\"message\":",
        "\x7b\"content\":\"Fix: add -std=c++17\"\x7d\x7d]"])
      Level.Error exampleInfo ⟨"sk-test", by decide⟩ _ "Expected , or \x7d after object property"
      rfl (by decide) rfl rfl rfl).2.1⟩

set_option maxRecDepth 100000 in
/-- Counterexample to C9 as stated: the body the transfer delivers is a JSON
document followed by a NUL character and more text, so it is not well-formed
JSON; the lambda is given the body up to the NUL, and the call prints the
suggestion and writes no parse error. -/
theorem HandleDiagnostic_nul_body_counterexample :
    parse nulTailBody = .error "Text after end of document" ∧
    (HandleDiagnostic (createAIDiagnosticConsumer envKeyOnly bareCI).1 bareCI
        (curlDelivering [nulTailBody]) Level.Error exampleInfo).2 =
      ⟨[Event.perform (HandleDiagnostic.options (createAIDiagnosticConsumer envKeyOnly bareCI).1
            ⟨"sk-test", by decide⟩
            (getPrompt (createAIDiagnosticConsumer envKeyOnly bareCI).1 bareCI "" exampleInfo)),
         Event.elog "AI Suggestion: \n", Event.errs "Fix: add -std=c++17\n"],
        .returned⟩ :=
  ⟨rfl, by decide⟩

/-- C3, amended: for every response body that parses as a JSON object whose
`error` field is itself a JSON object, the response lambda writes exactly one
error line in red, stops and prints no suggestion, even when the object also
has a `choices` array. -/
theorem responseLambda_error_envelope (Response : String) (O E : Object)
    (hParse : parse Response = .ok (.object O))
    (hError : O.get "error" = some (.object E)) :
    responseLambda Response = ⟨[Event.elog "AI Response Error: %0\n\n"], .returned⟩ := by
  simp only [responseLambda, hParse, Value.getAsObject, Object.getObject, hError,
    Option.bind, Option.isSome, if_true, elog_response_error]

/-- Witness of C3: an error object next to a `choices` array, whose suggestion
is not printed. -/
theorem responseLambda_error_envelope_witness :
    responseLambda errorObjectBody = ⟨[Event.elog "AI Response Error: %0\n\n"], .returned⟩ :=
  responseLambda_error_envelope errorObjectBody
    [("choices", .array [.object [("message", .object [("content", .string "Fix: add -std=c++17")])]]),
     ("error", .object [("message", .string "invalid_api_key")])]
    [("message", .string "invalid_api_key")] rfl rfl

/-- Counterexample to C3 as stated: the body parses as a JSON object with an
`error` field whose value is a string; no error is written and the suggestion
of the `choices` array is printed. -/
theorem responseLambda_error_string_counterexample :
    parse errorStringBody = .ok (.object
      [("choices", .array [.object [("message", .object [("content", .string "Fix: add -std=c++17")])]]),
       ("error", .string "invalid_api_key")]) ∧
    responseLambda errorStringBody =
      ⟨[Event.elog "AI Suggestion: \n", Event.errs "Fix: add -std=c++17\n"], .returned⟩ :=
  ⟨rfl, rfl⟩

/-- The loop over `choices` on entries that are all objects with a `message`
object: the suggestions of the entries that carry a content string, in order,
and a normal return. -/
theorem choicesLoop_of_message_objects (A : List Value)
    (hA : ∀ Choice ∈ A, ∃ O M : Object, Choice = .object O ∧ O.getObject "message" = some M) :
    ∀ out : List Event, choicesLoop A out = ⟨out ++ suggestionEvents A, .returned⟩ := by
  induction A with
  | nil => intro out; simp [choicesLoop, suggestionEvents]
  | cons Choice rest ih =>
    intro out
    obtain ⟨O, M, hO, hM⟩ := hA Choice (List.mem_cons_self _ _)
    have ih' := ih (fun C hC => hA C (List.mem_cons_of_mem _ hC))
    subst hO
    cases hC : M.getString "content" with
    | none =>
      simp only [choicesLoop, Value.getAsObject, hM, hC, suggestionEvents, contentOf,
        Option.bind, ih']
    | some Content =>
      have hl : elog "AI Suggestion: " [] = [Event.elog "AI Suggestion: \n"] := by decide
      simp only [choicesLoop, Value.getAsObject, hM, hC, suggestionEvents, contentOf,
        Option.bind, ih', hl, List.append_assoc, List.cons_append, List.nil_append]

/-- The canned response of the specification prints exactly one suggestion. -/
theorem responseLambda_canned_suggestion :
    responseLambda "\x7b\"choices\":[\x7b\"message\":\x7b\"content\":\"Fix: add -std=c++17\"\x7d\x7d]\x7d" =
      ⟨[Event.elog "AI Suggestion: \n", Event.errs "Fix: add -std=c++17\n"], .returned⟩ := rfl

/-- C2, at a failing input: the second entry of `choices` is an object with no
`message`.  The suggestion of the first entry is printed, then the lambda
dereferences the null pointer `getObject("message")` returned instead of
skipping the entry. -/
theorem responseLambda_missing_message :
    parse missingMessageBody = .ok (.object [("choices", .array
      [.object [("message", .object [("content", .string "Fix: add -std=c++17")])],
       .object [("index", .number "1")]])]) ∧
    responseLambda missingMessageBody =
      ⟨[Event.elog "AI Suggestion: \n", Event.errs "Fix: add -std=c++17\n"], .nullDereference⟩ :=
  ⟨rfl, rfl⟩

/-! ## Detection of the standard library -/

/-- The order of detection: with the key present and a preprocessor, the value
found for `_GLIBCXX_RELEASE` wins, then the one found for `_LIBCPP_VERSION`,
and with neither the version stays empty. -/
theorem Init_StdlibVersion (env : Environ) (CI : CompilerInstance) (AK : CString)
    (PP : Preprocessor) (hKey : env.getenv "CLANG_AI_KEY" = some AK)
    (hPP : CI.getPreprocessor = some PP) :
    (createAIDiagnosticConsumer env CI).1.StdlibVersion =
      match GetLiteralMacroValue PP "_GLIBCXX_RELEASE", GetLiteralMacroValue PP "_LIBCPP_VERSION" with
      | some V, _ => "libstdc++ " ++ V
      | none, some V => "libc++ " ++ V
      | none, none => "" := by
  unfold createAIDiagnosticConsumer Init
  simp only [hKey, hPP]
  cases GetLiteralMacroValue PP "_GLIBCXX_RELEASE" with
  | some v => rfl
  | none =>
    simp only []
    cases GetLiteralMacroValue PP "_LIBCPP_VERSION" <;> rfl

/-- Without a detected library the attribution phrase is directly followed by
the context section. -/
theorem getPrompt_without_library (self : AIDiagnosticConsumer) (CI : CompilerInstance)
    (Info : Diagnostic) (h : self.StdlibVersion = "") :
    getPrompt self CI "" Info = errorSentence Info ++ attributionPhrase ++ contextSection CI Info := by
  rw [getPrompt_eq]
  simp only [baseText, libraryPhrase, h, if_true, String.append_empty]

/-- The value read for a macro is the whole C string at the start of its first
token when that token is a literal, not the spelling of the token. -/
theorem GetLiteralMacroValue_eq (PP : Preprocessor) (MacroName : String) (T : Token)
    (rest : List Token) (hM : PP.getMacroInfo MacroName = some ⟨T :: rest⟩)
    (hL : T.isLiteral = true) :
    GetLiteralMacroValue PP MacroName = some (StringRef.ofCStr T.getLiteralData) := by
  simp [GetLiteralMacroValue, hM, hL, MacroInfo.getNumTokens]

set_option maxRecDepth 100000 in
/-- C6, at a failing input: `_GLIBCXX_RELEASE` is defined with the literal 13
in a buffer that continues after it.  The version `Init` stores is the rest of
the buffer from the literal on, and the library phrase of the prompt is not
`The used standard library is libstdc++ 13. `. -/
theorem Init_literal_overrun :
    (glibcxxPP.getMacroInfo "_GLIBCXX_RELEASE").map
        (fun M => M.tokens.map (fun T => (T.isLiteral, T.spelling))) = some [(true, "13")] ∧
    (createAIDiagnosticConsumer envKeyOnly ⟨some glibcxxPP, none⟩).1.StdlibVersion =
      "libstdc++ 13\n#define _GLIBCXX_USE_DUAL_ABI 1\n" ∧
    getPrompt (createAIDiagnosticConsumer envKeyOnly ⟨some glibcxxPP, none⟩).1 bareCI ""
        exampleInfo =
      "Error Message: 'test/unique.cpp:17:4': call to implicitly-deleted default constructor. " ++
      "The error message is produced by Clang. " ++
      "The used standard library is libstdc++ 13\n#define _GLIBCXX_USE_DUAL_ABI 1\n. " ∧
    ¬ ("The used standard library is libstdc++ 13. ".data <:+:
        (getPrompt (createAIDiagnosticConsumer envKeyOnly ⟨some glibcxxPP, none⟩).1 bareCI ""
          exampleInfo).data) := by
  refine ⟨by decide, by decide, by decide, by decide⟩

/-! ## The request round trip -/

theorem escapeChar_length_pos (C : Char) : 1 ≤ (escapeChar C).length := by
  unfold escapeChar
  split_ifs <;> simp

theorem escape_length (S : List Char) : S.length ≤ (escape S).length := by
  induction S with
  | nil => simp [escape]
  | cons C S ih =>
    have := escapeChar_length_pos C
    simp only [escape, List.length_cons, List.length_append]
    omega

theorem parseUnicode_basic (First : Nat) (P Out : List Char) (h : First < 0xD800) :
    parseUnicode First P Out = .ok (Out ++ [Char.ofNat First], P) := by
  unfold parseUnicode
  simp [h]

/-- One iteration of the string loop reads back an escaped control
character. -/
theorem parseStringLoop_control (k : Nat) (hk : k < 32) (n : Nat) (D : Char)
    (tail Out : List Char) :
    parseStringLoop (n + 1) (escapeChar (Char.ofNat k) ++ D :: tail) Out =
      parseStringLoop n (D :: tail) (Out ++ [Char.ofNat k]) := by
  interval_cases k <;>
    simp [parseStringLoop, escapeChar, hexDigit, Parse4Hex, parseUnicode_basic, isxdigit, hexValue]

/-- One iteration of the string loop reads back what `quote` wrote for one
character, when more input follows. -/
theorem parseStringLoop_escapeChar (C : Char) (n : Nat) (D : Char) (tail Out : List Char) :
    parseStringLoop (n + 1) (escapeChar C ++ D :: tail) Out =
      parseStringLoop n (D :: tail) (Out ++ [C]) := by
  by_cases hC : C.toNat < 32
  · have h := parseStringLoop_control C.toNat hC n D tail Out
    rwa [Char.ofNat_toNat] at h
  · have h20 : 0x20 ≤ C.toNat := by omega
    have h20' : ¬ C.toNat < 0x20 := by omega
    by_cases hq : C = '"'
    · subst hq
      simp [parseStringLoop, escapeChar]
    · by_cases hb : C = '\\'
      · subst hb
        simp [parseStringLoop, escapeChar]
      · simp [parseStringLoop, escapeChar, hq, hb, h20, h20']

theorem parseStringLoop_escape (S : List Char) (rest : List Char) :
    ∀ (n : Nat) (Out : List Char), S.length < n →
      parseStringLoop n (escape S ++ '"' :: rest) Out = .ok (⟨Out ++ S⟩, rest) := by
  induction S with
  | nil =>
    intro n Out hn
    obtain ⟨m, rfl⟩ : ∃ m, n = m + 1 := ⟨n - 1, by simp at hn; omega⟩
    simp [escape, parseStringLoop]
  | cons C S ih =>
    intro n Out hn
    obtain ⟨m, rfl⟩ : ∃ m, n = m + 1 := ⟨n - 1, by simp at hn; omega⟩
    have hm : S.length < m := by simp at hn; omega
    obtain ⟨D, tail, hD⟩ : ∃ D tail, escape S ++ '"' :: rest = D :: tail := by
      cases h : escape S ++ '"' :: rest with
      | nil => simp at h
      | cons D tail => exact ⟨D, tail, rfl⟩
    simp only [escape, List.append_assoc]
    rw [hD, parseStringLoop_escapeChar, ← hD, ih m _ hm]
    simp

/-- Reading back a quoted string: `parseString` returns the string `quote`
was given, whatever its characters, and stops after the closing quote. -/
theorem parseString_escape (S rest : List Char) :
    parseString (escape S ++ '"' :: rest) = .ok (⟨S⟩, rest) := by
  unfold parseString
  rw [parseStringLoop_escape]
  · simp
  · have := escape_length S
    simp only [List.length_append, List.length_cons]
    omega

theorem Request_eq (self : AIDiagnosticConsumer) (Prompt : String) :
    HandleDiagnostic.Request self Prompt =
      requestObject (StringRef.ofCStr self.Model) (c_str self.RolePrompt).text
        (c_str Prompt).text := by
  rfl

/-- The serialised request parses back to the request, whatever the three
strings are. -/
theorem parse_requestObject (Model RolePrompt Prompt : String) :
    parse (Value.object (requestObject Model RolePrompt Prompt)).toString =
      .ok (Value.object (requestObject Model RolePrompt Prompt)) := by
  unfold parse
  obtain ⟨m, hm⟩ : ∃ m,
      (Value.object (requestObject Model RolePrompt Prompt)).toString.length + 1 = m + 6 := by
    refine ⟨(Value.object (requestObject Model RolePrompt Prompt)).toString.length - 5, ?_⟩
    simp [Value.toString, requestObject, Value.serialize, serializeProperties,
      serializeElements, quote, String.length]
    omega
  rw [hm]
  simp only [Value.toString, requestObject, Value.serialize, serializeProperties,
    serializeElements, quote, List.append_assoc, List.cons_append, List.nil_append,
    List.singleton_append]
  simp [parseValue, parseObjectLoop, parseArrayLoop, eatWhitespace, parseString_escape,
    expectChars, Object.set, keyLt, ltChars]

theorem c_str_of_nul_free (s : String) (h : ∀ c ∈ s.data, c ≠ NUL) : (c_str s).text = s := by
  have h' : s.data.takeWhile (fun c => c != NUL) = s.data := by
    rw [List.takeWhile_eq_self_iff]
    intro c hc
    simpa using h c hc
  simp only [c_str, h']

theorem escapeChar_control_nul_free (k : Nat) (hk : k < 32) :
    ∀ c ∈ escapeChar (Char.ofNat k), c ≠ NUL := by
  interval_cases k <;> decide

theorem escapeChar_nul_free (C : Char) : ∀ c ∈ escapeChar C, c ≠ NUL := by
  by_cases hC : C.toNat < 32
  · have h := escapeChar_control_nul_free C.toNat hC
    rwa [Char.ofNat_toNat] at h
  · have hN : C ≠ NUL := by
      intro h
      rw [h] at hC
      exact hC (by decide)
    have h20 : 0x20 ≤ C.toNat := by omega
    intro c hc
    unfold escapeChar at hc
    split_ifs at hc with h1
    · simp only [List.mem_cons, List.mem_singleton, List.not_mem_nil, or_false] at hc
      rcases hc with rfl | rfl
      · decide
      · exact hN
    · simp only [List.mem_singleton] at hc
      rw [hc]
      exact hN

/-- The text `quote` writes holds no NUL, whatever the string holds. -/
theorem escape_nul_free (S : List Char) : ∀ c ∈ escape S, c ≠ NUL := by
  induction S with
  | nil => intro c hc; simp [escape] at hc
  | cons C S ih =>
    intro c hc
    simp only [escape, List.mem_append] at hc
    rcases hc with hc | hc
    · exact escapeChar_nul_free C c hc
    · exact ih c hc

theorem escape_all_nul_free (S : List Char) : (escape S).all (fun c => c != NUL) = true := by
  simp only [List.all_eq_true]
  intro c hc
  simpa using escape_nul_free S c hc

theorem requestObject_nul_free (Model RolePrompt Prompt : String) :
    ∀ c ∈ (Value.object (requestObject Model RolePrompt Prompt)).toString.data, c ≠ NUL := by
  have h : ((Value.object (requestObject Model RolePrompt Prompt)).toString.data).all
      (fun c => c != NUL) = true := by
    simp only [Value.toString, requestObject, Value.serialize, serializeProperties,
      serializeElements, quote, List.append_assoc, List.cons_append, List.nil_append,
      List.singleton_append, List.all_cons, List.all_append, escape_all_nul_free,
      Bool.and_eq_true, Bool.true_and, Bool.and_true, and_true, true_and, List.all_nil]
    decide
  intro c hc
  simpa using (List.all_eq_true.mp h) c hc

/-- The body posted for a consumer and a prompt parses back to the request
object holding the C strings of the model, of the system prompt and of the
prompt. -/
theorem parse_POSTFIELDS (self : AIDiagnosticConsumer) (AK : CString) (Prompt : String) :
    parse (HandleDiagnostic.options self AK Prompt).POSTFIELDS =
      .ok (.object (requestObject (StringRef.ofCStr self.Model) (c_str self.RolePrompt).text
        (c_str Prompt).text)) := by
  simp only [HandleDiagnostic.options, Request_eq]
  rw [c_str_of_nul_free _ (requestObject_nul_free _ _ _), parse_requestObject]

theorem CString.not_mem_nul (s : CString) : ∀ c ∈ s.text.data, c ≠ NUL := by
  intro c hc
  simpa using (List.all_eq_true.mp s.nul_free) c hc

/-- The system prompt `Init` composes holds no NUL: it is made of C strings. -/
theorem Init_RolePrompt_nul_free (env : Environ) (CI : CompilerInstance) (AK : CString)
    (hKey : env.getenv "CLANG_AI_KEY" = some AK) :
    ∀ c ∈ (createAIDiagnosticConsumer env CI).1.RolePrompt.data, c ≠ NUL := by
  intro c hc
  rw [Init_RolePrompt env CI AK hKey] at hc
  simp only [String.data_append, List.mem_append] at hc
  rcases hc with (((hc | hc) | hc) | hc) | hc
  · exact CString.not_mem_nul _ c hc
  · revert c; decide
  · exact CString.not_mem_nul _ c hc
  · revert c; decide
  · revert c; decide

theorem Init_Model (env : Environ) (CI : CompilerInstance) (AK : CString)
    (hKey : env.getenv "CLANG_AI_KEY" = some AK) :
    (createAIDiagnosticConsumer env CI).1.Model =
      some ((env.getenv "CLANG_AI_MODEL").getD defaultModel) := by
  unfold createAIDiagnosticConsumer Init
  simp only [hKey]
  cases CI.getPreprocessor with
  | none => rfl
  | some PP =>
    simp only []
    cases GetLiteralMacroValue PP "_GLIBCXX_RELEASE" with
    | some v => rfl
    | none =>
      simp only []
      cases GetLiteralMacroValue PP "_LIBCPP_VERSION" <;> rfl

/-- C4, amended: for every configuration with the key present (hence every
configured model and composed system prompt) and every prompt text, all of
them well-formed UTF-8 (as all text here is) and the prompt text holding no NUL
character, the body `HandleDiagnostic` posts parses back to an object with
`model` equal to the configured model, `enable_search` true,
`search_options.forced_search` true and a `messages` array of exactly two
entries, system then user, whose contents are the system prompt and the prompt
text, character for character. -/
theorem request_roundtrip (env : Environ) (CI : CompilerInstance) (AK : CString)
    (Prompt : String) (hKey : env.getenv "CLANG_AI_KEY" = some AK)
    (hPrompt : ∀ c ∈ Prompt.data, c ≠ NUL) :
    ∃ O : Object,
      parse (HandleDiagnostic.options (createAIDiagnosticConsumer env CI).1 AK Prompt).POSTFIELDS =
        .ok (.object O) ∧
      O.getString "model" = some ((env.getenv "CLANG_AI_MODEL").getD defaultModel).text ∧
      O.getBoolean "enable_search" = some true ∧
      (O.getObject "search_options").bind (fun S => S.getBoolean "forced_search") = some true ∧
      O.getArray "messages" = some
        [.object [("content", .string (createAIDiagnosticConsumer env CI).1.RolePrompt),
                  ("role", .string "system")],
         .object [("content", .string Prompt), ("role", .string "user")]] := by
  refine ⟨_, parse_POSTFIELDS _ AK Prompt, ?_, ?_, ?_, ?_⟩
  · rw [Init_Model env CI AK hKey]
    rfl
  · rfl
  · rfl
  · rw [c_str_of_nul_free _ (Init_RolePrompt_nul_free env CI AK hKey),
      c_str_of_nul_free _ hPrompt]
    rfl

set_option maxRecDepth 100000 in
/-- Witness of C4: the default configuration and the prompt of an error found
while a function is parsed. -/
theorem request_roundtrip_witness :
    ∃ O : Object,
      parse (HandleDiagnostic.options (createAIDiagnosticConsumer envKeyOnly bareCI).1
          ⟨"sk-test", by decide⟩
          (getPrompt (createAIDiagnosticConsumer envKeyOnly bareCI).1
            ⟨none, some ⟨false, [], some ⟨⟨10, 20⟩⟩⟩⟩ "" exampleInfo)).POSTFIELDS =
        .ok (.object O) ∧
      O.getString "model" = some "qwen-max" ∧
      O.getArray "messages" = some
        [.object [("content", .string (createAIDiagnosticConsumer envKeyOnly bareCI).1.RolePrompt),
                  ("role", .string "system")],
         .object [("content", .string (getPrompt (createAIDiagnosticConsumer envKeyOnly bareCI).1
            ⟨none, some ⟨false, [], some ⟨⟨10, 20⟩⟩⟩⟩ "" exampleInfo)), ("role", .string "user")]] := by
  obtain ⟨O, h1, h2, _, _, h5⟩ := request_roundtrip envKeyOnly bareCI ⟨"sk-test", by decide⟩
    (getPrompt (createAIDiagnosticConsumer envKeyOnly bareCI).1
      ⟨none, some ⟨false, [], some ⟨⟨10, 20⟩⟩⟩⟩ "" exampleInfo) rfl (by decide)
  exact ⟨O, h1, h2, h5⟩

set_option maxRecDepth 100000 in
/-- Counterexample to C4 as stated: the declaration being parsed holds a NUL
character in a comment, so the prompt text holds one; the content of the user
message that parses back is the prompt up to that character, not the prompt. -/
theorem request_roundtrip_nul_counterexample :
    getPrompt (createAIDiagnosticConsumer envShortRole bareCI).1 nulCI "" nulInfo =
      "Error Message: 't.cpp:1:18': use of undeclared identifier 'x'. " ++
      "The error message is produced by Clang. " ++
      "The current parsing context is: int f() \x7b return x; /*\x00*/ \x7d" ∧
    parse (HandleDiagnostic.options (createAIDiagnosticConsumer envShortRole bareCI).1
        ⟨"sk-test", by decide⟩
        (getPrompt (createAIDiagnosticConsumer envShortRole bareCI).1 nulCI "" nulInfo)).POSTFIELDS =
      .ok (.object (requestObject "qwen-max"
        (createAIDiagnosticConsumer envShortRole bareCI).1.RolePrompt
        ("Error Message: 't.cpp:1:18': use of undeclared identifier 'x'. " ++
         "The error message is produced by Clang. " ++
         "The current parsing context is: int f() \x7b return x; /*"))) ∧
    "Error Message: 't.cpp:1:18': use of undeclared identifier 'x'. " ++
      "The error message is produced by Clang. " ++
      "The current parsing context is: int f() \x7b return x; /*" ≠
      getPrompt (createAIDiagnosticConsumer envShortRole bareCI).1 nulCI "" nulInfo := by
  refine ⟨by decide, ?_, by decide⟩
  rw [parse_POSTFIELDS]
  have h1 : (c_str (createAIDiagnosticConsumer envShortRole bareCI).1.RolePrompt).text =
      (createAIDiagnosticConsumer envShortRole bareCI).1.RolePrompt := by decide
  have h2 : (c_str (getPrompt (createAIDiagnosticConsumer envShortRole bareCI).1 nulCI ""
      nulInfo)).text =
      "Error Message: 't.cpp:1:18': use of undeclared identifier 'x'. " ++
      "The error message is produced by Clang. " ++
      "The current parsing context is: int f() \x7b return x; /*" := by decide
  rw [h1, h2]
  rfl

/-! ## The budget of the parser is never the cause of an error -/

theorem eatWhitespace_length (P : List Char) : (eatWhitespace P).length ≤ P.length := by
  induction P with
  | nil => simp [eatWhitespace]
  | cons C P ih =>
    unfold eatWhitespace
    split_ifs
    · simp only [List.length_cons]; omega
    · simp

theorem expectChars_length (cs : List Char) :
    ∀ P P' : List Char, expectChars cs P = some P' → P'.length ≤ P.length := by
  induction cs with
  | nil => intro P P' h; simp [expectChars] at h; simp [h]
  | cons c cs ih =>
    intro P P' h
    cases P with
    | nil => simp [expectChars] at h
    | cons d P =>
      simp only [expectChars] at h
      split_ifs at h
      have := ih P P' h
      simp only [List.length_cons]; omega

theorem parseUnicode_spec (First : Nat) (P Out : List Char) :
    (∀ e, parseUnicode First P Out = .error e → e ≠ recursionLimit) ∧
    (∀ Out' P', parseUnicode First P Out = .ok (Out', P') → P'.length ≤ P.length) := by
  induction First, P, Out using parseUnicode.induct with
  | case1 First P Out h => unfold parseUnicode; simp [h]
  | case2 First P Out h1 h2 => unfold parseUnicode; simp [h1, h2]
  | case3 First Out h1 h2 c1 c2 hc a b c d P hx Second hS ih =>
    unfold parseUnicode
    simp only [h1, h2, hc, hx, if_true, if_false, and_self]
    have hS' : ((hexValue a * 16 + hexValue b) * 16 + hexValue c) * 16 + hexValue d < 56320 ∨
        57344 ≤ ((hexValue a * 16 + hexValue b) * 16 + hexValue c) * 16 + hexValue d := hS
    simp only [hS', if_true]
    refine ⟨ih.1, fun Out' P' h => ?_⟩
    have := ih.2 Out' P' h
    simp only [List.length_cons]; omega
  | case4 First Out h1 h2 c1 c2 hc a b c d P hx Second hS =>
    unfold parseUnicode
    have hS' : ¬ (((hexValue a * 16 + hexValue b) * 16 + hexValue c) * 16 + hexValue d < 56320 ∨
        57344 ≤ ((hexValue a * 16 + hexValue b) * 16 + hexValue c) * 16 + hexValue d) := hS
    simp only [h1, h2, hc, hx, if_true, if_false, and_self, hS']
    simp
    omega
  | case5 First Out h1 h2 c1 c2 hc a b c d P hx =>
    unfold parseUnicode
    simp [h1, h2, hc, hx, recursionLimit]
  | case6 First Out h1 h2 c1 c2 P2 hc hP2 =>
    unfold parseUnicode
    simp only [h1, h2, hc, if_true, if_false, and_self]
    simp [recursionLimit]
  | case7 First Out h1 h2 c1 c2 P2 hc =>
    unfold parseUnicode
    simp [h1, h2, hc]
  | case8 First P Out h1 h2 hP =>
    unfold parseUnicode
    simp only [h1, h2, if_false]
    simp


theorem Parse4Hex_length (P : List Char) (First : Nat) (P' : List Char)
    (h : Parse4Hex P = some (First, P')) : P'.length ≤ P.length := by
  unfold Parse4Hex at h
  split at h
  · split_ifs at h
    simp only [Option.some.injEq, Prod.mk.injEq] at h
    rw [← h.2]
    simp only [List.length_cons]; omega
  · simp at h

theorem parseStringLoop_spec (n : Nat) (P Out : List Char) :
    (∀ e, parseStringLoop n P Out = .error e → e ≠ recursionLimit) ∧
    (∀ S P', parseStringLoop n P Out = .ok (S, P') → P'.length < P.length) := by
  induction n, P, Out using parseStringLoop.induct <;>
    (unfold parseStringLoop; simp_all [recursionLimit])
  case case6 n Out C S h1 h2 h3 h4 ih =>
    have h3' : ¬ C.toNat < 32 := by omega
    simp only [h3', if_false]
    exact ⟨ih.1, fun S P' h => Nat.lt_succ_of_lt (ih.2 S P' h)⟩
  case case8 ih => exact fun S P' h => Nat.lt_succ_of_lt (Nat.lt_succ_of_lt (ih.2 S P' h))
  case case9 ih => exact fun S P' h => Nat.lt_succ_of_lt (Nat.lt_succ_of_lt (ih.2 S P' h))
  case case10 ih => exact fun S P' h => Nat.lt_succ_of_lt (Nat.lt_succ_of_lt (ih.2 S P' h))
  case case11 ih => exact fun S P' h => Nat.lt_succ_of_lt (Nat.lt_succ_of_lt (ih.2 S P' h))
  case case12 ih => exact fun S P' h => Nat.lt_succ_of_lt (Nat.lt_succ_of_lt (ih.2 S P' h))
  case case13 ih => exact fun S P' h => Nat.lt_succ_of_lt (Nat.lt_succ_of_lt (ih.2 S P' h))
  case case15 h4 hU => exact (parseUnicode_spec _ _ _).1 _ hU
  case case16 h4 hU ih =>
    intro S P' h
    have h1 := ih.2 S P' h
    have h2 := (parseUnicode_spec _ _ _).2 _ _ hU
    have h3 := Parse4Hex_length _ _ _ h4
    omega


theorem parseString_spec (P : List Char) :
    (∀ e, parseString P = .error e → e ≠ recursionLimit) ∧
    (∀ S P', parseString P = .ok (S, P') → P'.length < P.length) :=
  parseStringLoop_spec _ _ _

theorem parseNumber_spec (First : Char) (P : List Char) :
    (∀ e, parseNumber First P = .error e → e ≠ recursionLimit) ∧
    (∀ V P', parseNumber First P = .ok (V, P') → P'.length ≤ P.length) := by
  unfold parseNumber
  simp only []
  split_ifs
  · refine ⟨by simp, ?_⟩
    intro V P' h
    simp only [Except.ok.injEq, Prod.mk.injEq] at h
    rw [← h.2]
    exact (List.dropWhile_sublist _).length_le
  · simp [recursionLimit]

theorem parseArrayLoop_spec (pv : List Char → Except String (Value × List Char)) (bound : Nat)
    (hpv : WithinBudget pv bound) :
    ∀ (n : Nat) (P : List Char) (A : List Value), P.length < n → n ≤ bound →
      (∀ e, parseArrayLoop pv n P A = .error e → e ≠ recursionLimit) ∧
      (∀ V P', parseArrayLoop pv n P A = .ok (V, P') → P'.length < P.length) := by
  intro n
  induction n with
  | zero => intro P A h; omega
  | succ n ih =>
    intro P A hP hn
    have hv := hpv P (by omega)
    unfold parseArrayLoop
    cases hr : pv P with
    | error e => simpa using hv.1 e hr
    | ok r =>
      obtain ⟨V, P1⟩ := r
      have h1 := hv.2 V P1 hr
      have hw := eatWhitespace_length P1
      simp only []
      cases hq : eatWhitespace P1 with
      | nil => simp [recursionLimit]
      | cons C P2 =>
        rw [hq] at hw
        simp only [List.length_cons] at hw
        have hw2 := eatWhitespace_length P2
        simp only []
        split_ifs
        · have := ih (eatWhitespace P2) (A ++ [V]) (by omega) (by omega)
          exact ⟨this.1, fun V' P' h => by have := this.2 V' P' h; omega⟩
        · simp; omega
        · simp [recursionLimit]


theorem parseObjectLoop_spec (pv : List Char → Except String (Value × List Char)) (bound : Nat)
    (hpv : WithinBudget pv bound) :
    ∀ (n : Nat) (P : List Char) (O : Object), P.length < n → n ≤ bound →
      (∀ e, parseObjectLoop pv n P O = .error e → e ≠ recursionLimit) ∧
      (∀ V P', parseObjectLoop pv n P O = .ok (V, P') → P'.length < P.length) := by
  intro n
  induction n with
  | zero => intro P O h; omega
  | succ n ih =>
    intro P O hP hn
    unfold parseObjectLoop
    cases P with
    | nil => simp [recursionLimit]
    | cons C P0 =>
      simp only [List.length_cons] at hP
      simp only []
      split_ifs with hC
      · simp [recursionLimit]
      · have hs := parseString_spec P0
        cases hr : parseString P0 with
        | error e => simpa using hs.1 e hr
        | ok r =>
          obtain ⟨K, P1⟩ := r
          have h1 := hs.2 K P1 hr
          have hw1 := eatWhitespace_length P1
          simp only []
          cases hq : eatWhitespace P1 with
          | nil => simp [recursionLimit]
          | cons D P2 =>
            rw [hq] at hw1
            simp only [List.length_cons] at hw1
            simp only []
            split_ifs with hD
            · simp [recursionLimit]
            · have hw2 := eatWhitespace_length P2
              have hv := hpv (eatWhitespace P2) (by omega)
              cases hr2 : pv (eatWhitespace P2) with
              | error e => simpa using hv.1 e hr2
              | ok r2 =>
                obtain ⟨V, P3⟩ := r2
                have h3 := hv.2 V P3 hr2
                have hw3 := eatWhitespace_length P3
                simp only []
                cases hq3 : eatWhitespace P3 with
                | nil => simp [recursionLimit]
                | cons E P4 =>
                  rw [hq3] at hw3
                  simp only [List.length_cons] at hw3
                  have hw4 := eatWhitespace_length P4
                  simp only []
                  split_ifs
                  · have := ih (eatWhitespace P4) (Object.set K V O) (by omega) (by omega)
                    exact ⟨this.1, fun V' P' h => by
                      have := this.2 V' P' h
                      simp only [List.length_cons]; omega⟩
                  · simp; omega
                  · simp [recursionLimit]

/-- With a bound above the length of the input, `parseValue` never reports the
recursion limit, and a value it returns has consumed input. -/
theorem parseValue_spec : ∀ fuel : Nat, WithinBudget (parseValue fuel) fuel := by
  intro fuel
  induction fuel with
  | zero => intro P h; omega
  | succ fuel ih =>
    intro P hP
    have hw := eatWhitespace_length P
    unfold parseValue
    cases hq : eatWhitespace P with
    | nil => simp [recursionLimit]
    | cons C P1 =>
      rw [hq] at hw
      simp only [List.length_cons] at hw
      simp only []
      split_ifs
      · cases he : expectChars ['u', 'l', 'l'] P1 with
        | none => simp [recursionLimit]
        | some P2 =>
          have := expectChars_length _ _ _ he
          simp; omega
      · cases he : expectChars ['r', 'u', 'e'] P1 with
        | none => simp [recursionLimit]
        | some P2 =>
          have := expectChars_length _ _ _ he
          simp; omega
      · cases he : expectChars ['a', 'l', 's', 'e'] P1 with
        | none => simp [recursionLimit]
        | some P2 =>
          have := expectChars_length _ _ _ he
          simp; omega
      · have hs := parseString_spec P1
        cases hr : parseString P1 with
        | error e => simpa using hs.1 e hr
        | ok r =>
          obtain ⟨S, P2⟩ := r
          have := hs.2 S P2 hr
          simp; omega
      · have hw1 := eatWhitespace_length P1
        cases hq1 : eatWhitespace P1 with
        | nil =>
          have := parseArrayLoop_spec (parseValue fuel) fuel ih fuel [] []
            (by simp only [List.length_nil]; omega) (Nat.le_refl _)
          exact ⟨this.1, fun V P' h => by have := this.2 V P' h; simp at this⟩
        | cons D Q =>
          rw [hq1] at hw1
          simp only [List.length_cons] at hw1
          simp only []
          split_ifs
          · simp; omega
          · have := parseArrayLoop_spec (parseValue fuel) fuel ih fuel (D :: Q) []
              (by simp only [List.length_cons]; omega) (Nat.le_refl _)
            exact ⟨this.1, fun V P' h => by
              have := this.2 V P' h
              simp only [List.length_cons] at this; omega⟩
      · have hw1 := eatWhitespace_length P1
        cases hq1 : eatWhitespace P1 with
        | nil =>
          have := parseObjectLoop_spec (parseValue fuel) fuel ih fuel [] []
            (by simp only [List.length_nil]; omega) (Nat.le_refl _)
          exact ⟨this.1, fun V P' h => by have := this.2 V P' h; simp at this⟩
        | cons D Q =>
          rw [hq1] at hw1
          simp only [List.length_cons] at hw1
          simp only []
          split_ifs
          · simp; omega
          · have := parseObjectLoop_spec (parseValue fuel) fuel ih fuel (D :: Q) []
              (by simp only [List.length_cons]; omega) (Nat.le_refl _)
            exact ⟨this.1, fun V P' h => by
              have := this.2 V P' h
              simp only [List.length_cons] at this; omega⟩
      · have hn := parseNumber_spec C P1
        exact ⟨hn.1, fun V P' h => by have := hn.2 V P' h; omega⟩
      · simp [recursionLimit]


/-- The budget `parse` gives is never the cause of an error: whatever the
text, `parse` does not report the recursion limit. -/
theorem parse_ne_recursionLimit (JSON : String) : parse JSON ≠ .error recursionLimit := by
  unfold parse
  have h := parseValue_spec (JSON.length + 1) JSON.data (Nat.lt_succ_self _)
  cases hr : parseValue (JSON.length + 1) JSON.data with
  | error e =>
    intro hc
    simp only [Except.error.injEq] at hc
    exact h.1 e hr hc
  | ok r =>
    obtain ⟨E, P⟩ := r
    simp only []
    split <;> simp [recursionLimit]

end AIDiag
